import Mathlib

/-!
# thor/service.cc : request-to-search orchestration of the route worker

A shallow embedding of `src/thor/service.cc` (class `thor_worker_t`): the
multi-pass search loop `GetPath`, the costing merge `get_costing`, the request
parser `init_request` and the dispatcher `work`.

Conventions of the embedding

* A C++ exception derived from `std::exception` is the `Except.error` side of an
  `Except String _`, carrying `what()`.
* Member functions take the worker as an argument and give the worker back.
* Collaborators that live outside this file (the search algorithms, the cost
  models of `sif`, the location parsers of `baldr`, the JSON reader and the
  stream translators of boost) are parameters.
* `boost::property_tree::ptree` is modelled structurally, with the path
  semantics of `get_child_optional` and `put_child`.
-/

set_option autoImplicit false

namespace Thor

/-! ## boost::property_tree::ptree -/

/-- A property tree: a data string and an ordered list of keyed children. Keys
need not be unique. -/
inductive Ptree where
  | mk (data : String) (children : List (String × Ptree))

namespace Ptree

/-- The data string of the node (`ptree::data()`). -/
def data : Ptree → String
  | mk d _ => d

/-- The keyed children of the node, in insertion order. -/
def children : Ptree → List (String × Ptree)
  | mk _ cs => cs

/-- A default-constructed tree (`ptree()`): no data, no children. -/
def empty : Ptree := mk "" []

/-- Splitting of a path at the separator `'.'`, the way repeated
`string_path::reduce()` consumes it: `cur` holds the characters of the current
fragment, newest first. The result always has at least one fragment. -/
def splitPath : List Char → List Char → List String
  | [], cur => [String.mk cur.reverse]
  | c :: cs, cur =>
    if c = '.' then String.mk cur.reverse :: splitPath cs [] else splitPath cs (c :: cur)

/-- Removes a final empty fragment. -/
def dropLastEmpty : List String → List String
  | [] => []
  | [f] => if f = "" then [] else [f]
  | f :: g :: fs => f :: dropLastEmpty (g :: fs)

/-- The fragments `walk_path` looks up, in order. `walk_path` stops as soon as
the path is `empty()`, which after a `reduce()` that consumed a trailing
separator is the case: `"a."` walks `a` only, and `""` walks nothing. -/
def walkFragments (path : String) : List String :=
  dropLastEmpty (splitPath path.data [])

/-- The lookup `ptree::find(key)` on the children: the first child with that key. -/
def find (key : String) : List (String × Ptree) → Option Ptree
  | [] => none
  | (k, v) :: rest => if k = key then some v else find key rest

/-- The descent of `ptree::walk_path`: descend along the fragments, at each level into the
first child carrying the fragment as key. -/
def walk_path : List String → Ptree → Option Ptree
  | [], t => some t
  | f :: fs, t =>
    match find f t.children with
    | none => none
    | some child => walk_path fs child

/-- The lookup `ptree::get_child_optional(path)`. -/
def get_child_optional (t : Ptree) (path : String) : Option Ptree :=
  walk_path (walkFragments path) t

/-- The lookup `ptree::get_optional<std::string>(path)`: the data of the child at the path;
the string translator is the identity and never fails. -/
def get_optional_string (t : Ptree) (path : String) : Option String :=
  (t.get_child_optional path).map data

/-- Replace the value of the first child with the given key, if there is one. -/
def replaceFirst (key : String) (value : Ptree) :
    List (String × Ptree) → List (String × Ptree)
  | [] => []
  | (k, v) :: rest =>
    if k = key then (k, value) :: rest else (k, v) :: replaceFirst key value rest

/-- The last step of `put_child`: `find(fragment)`; an existing child is
assigned the value, otherwise the pair is `push_back`ed. -/
def putHere (key : String) (value : Ptree) (cs : List (String × Ptree)) :
    List (String × Ptree) :=
  match find key cs with
  | some _ => replaceFirst key value cs
  | none => cs ++ [(key, value)]

/-- The descent of `force_path` followed by the final assignment of `put_child`, on the
fragments of the path: every fragment but the last is descended into (created
empty when absent), the last one is replaced or appended. `BOOST_ASSERT`s are
compiled out, so an empty path behaves as the single fragment `""`. -/
def putFragments : List String → Ptree → Ptree → Ptree
  | [], _, t => t
  | [f], value, mk d cs => mk d (putHere f value cs)
  | f :: g :: fs, value, mk d cs =>
    match find f cs with
    | some child => mk d (replaceFirst f (putFragments (g :: fs) value child) cs)
    | none => mk d (cs ++ [(f, putFragments (g :: fs) value empty)])

/-- The assignment `ptree::put_child(path, value)`. A `std::string` key given as the path is
converted to a path and therefore split at `'.'`. -/
def put_child (t : Ptree) (path : String) (value : Ptree) : Ptree :=
  putFragments (splitPath path.data []) value t

end Ptree

/-! ## sif: travel modes and cost models -/

/-- The enumeration `sif::TravelMode`, the index into `mode_costing`. -/
inductive TravelMode where
  | kDrive
  | kPedestrian
  | kBicycle
  | kPublicTransit
  deriving DecidableEq, Repr

/-- The cast `static_cast<uint32_t>(mode)`. -/
def TravelMode.toNat : TravelMode → Nat
  | kDrive => 0
  | kPedestrian => 1
  | kBicycle => 2
  | kPublicTransit => 3

/-- A mutating call received by a cost model. The `float` argument `16.0f` of
`RelaxHierarchyLimits` is recorded by its exact value. -/
inductive CostCall where
  | RelaxHierarchyLimits (factor : Nat)
  | DisableHighwayTransitions
  deriving DecidableEq, Repr

/-- A cost model (`sif::DynamicCost` behind a `cost_ptr_t`), described by how
it came to be: the name and options tree given to `factory.Create`, and the
mutating calls it has received since, oldest first. A model fresh from the
factory has an empty history: its limits are the default (strict) ones. -/
structure DynamicCost where
  costing : String
  options : Ptree
  history : List CostCall

/-- The call `cost->RelaxHierarchyLimits(factor)`. -/
def DynamicCost.RelaxHierarchyLimits (c : DynamicCost) (factor : Nat) : DynamicCost :=
  { c with history := c.history ++ [CostCall.RelaxHierarchyLimits factor] }

/-- The call `cost->DisableHighwayTransitions()`. -/
def DynamicCost.DisableHighwayTransitions (c : DynamicCost) : DynamicCost :=
  { c with history := c.history ++ [CostCall.DisableHighwayTransitions] }

/-- The part of `sif` the worker consults about a cost model. -/
structure Sif where
  /-- The call `cost->travelmode()`. -/
  travelmode : DynamicCost → TravelMode
  /-- The call `cost->AllowMultiPass()`. -/
  AllowMultiPass : DynamicCost → Bool
  /-- The `what()` of the exception `factory.Create` throws for a name that was
  not registered. -/
  unregistered : String → String

/-- The array `cost_ptr_t mode_costing[4]`: one slot per travel mode, `none` for a null
pointer. -/
structure ModeCosting where
  drive : Option DynamicCost
  pedestrian : Option DynamicCost
  bicycle : Option DynamicCost
  transit : Option DynamicCost

/-- The read `mode_costing[static_cast<uint32_t>(mode)]`. -/
def ModeCosting.get (t : ModeCosting) : TravelMode → Option DynamicCost
  | TravelMode.kDrive => t.drive
  | TravelMode.kPedestrian => t.pedestrian
  | TravelMode.kBicycle => t.bicycle
  | TravelMode.kPublicTransit => t.transit

/-- The assignment `mode_costing[static_cast<uint32_t>(mode)] = cost`. -/
def ModeCosting.set (t : ModeCosting) (mode : TravelMode) (c : Option DynamicCost) :
    ModeCosting :=
  match mode with
  | TravelMode.kDrive => { t with drive := c }
  | TravelMode.kPedestrian => { t with pedestrian := c }
  | TravelMode.kBicycle => { t with bicycle := c }
  | TravelMode.kPublicTransit => { t with transit := c }

/-! ## The worker -/

/-- The class `baldr::Location`: the optional date-time tag, and everything else
`Location::FromPtree` read. -/
structure Location (α : Type) where
  payload : α
  date_time_ : Option String

/-- The state of a `thor_worker_t`. `α` is the payload of a location, `π` the
type of a correlated location (`baldr::PathLocation`), `σ` the state of a
path algorithm and `ρ` the state of the graph reader. `factory` holds the names
registered with the costing factory. -/
structure thor_worker_t (α π σ ρ : Type) where
  mode : TravelMode
  config : Ptree
  factory : List String
  reader : ρ
  locations : List (Location α)
  correlated : List π
  mode_costing : ModeCosting
  astar : σ
  bidir_astar : σ
  multi_modal_astar : σ

/-! ## GetPath -/

/-- The interface of `thor::PathAlgorithm` that `GetPath` uses. `GetBestPath`
gets the algorithm state, origin, destination, the graph reader, the cost-model
table and the mode; it gives the path and the new algorithm and reader state. -/
structure PathAlgorithm (π σ ρ τ : Type) where
  GetBestPath : σ → π → π → ρ → ModeCosting → TravelMode → List τ × σ × ρ
  Clear : σ → σ

/-- What `GetPath` does to its collaborators, in program order. A `GetBestPath`
event records the cost-model table and mode the call was given. -/
inductive Event where
  | Log (msg : String)
  | GetBestPath (mode_costing : ModeCosting) (mode : TravelMode)
  | Clear
  | RelaxHierarchyLimits (factor : Nat)
  | DisableHighwayTransitions

/-- The event is a `GetBestPath` call. -/
def Event.isGetBestPath : Event → Bool
  | Event.GetBestPath _ _ => true
  | _ => false

/-- The event is a `PathAlgorithm::Clear` call. -/
def Event.isClear : Event → Bool
  | Event.Clear => true
  | _ => false

/-- The event is a `RelaxHierarchyLimits` call. -/
def Event.isRelax : Event → Bool
  | Event.RelaxHierarchyLimits _ => true
  | _ => false

/-- The event is a `DisableHighwayTransitions` call. -/
def Event.isDisable : Event → Bool
  | Event.DisableHighwayTransitions => true
  | _ => false

/-- The state `GetPath` leaves behind: the out-parameter `path_edges`, the
pointee of `path_algorithm`, the worker, and the calls made. -/
structure GetPathResult (α π σ ρ τ : Type) where
  path_edges : List τ
  path_algorithm : σ
  worker : thor_worker_t α π σ ρ
  trace : List Event

/-- The member `thor_worker_t::GetPath`. The result is `none` when the code dereferences a
null `cost` pointer (an empty first path with an empty slot for the active
mode). `cost` is a shared pointer to the object in the slot of the active mode,
so the calls on `cost` change that slot. -/
def GetPath {α π σ ρ τ : Type} (sif : Sif) (alg : PathAlgorithm π σ ρ τ)
    (w : thor_worker_t α π σ ρ) (path_algorithm : σ) (origin destination : π) :
    Option (GetPathResult α π σ ρ τ) :=
  let r1 := alg.GetBestPath path_algorithm origin destination w.reader w.mode_costing w.mode
  let t1 := [Event.Log "#_passes::1", Event.GetBestPath w.mode_costing w.mode]
  if r1.1.length = 0 then
    match w.mode_costing.get w.mode with
    | none => none
    | some cost =>
      if sif.AllowMultiPass cost then
        -- 2nd pass
        let a2 := alg.Clear r1.2.1
        let cost2 := cost.RelaxHierarchyLimits 16
        let mc2 := w.mode_costing.set w.mode (some cost2)
        let r2 := alg.GetBestPath a2 origin destination r1.2.2 mc2 w.mode
        let t2 := t1 ++ [Event.Clear, Event.RelaxHierarchyLimits 16, Event.Log "#_passes::2",
          Event.GetBestPath mc2 w.mode]
        -- 3rd pass
        if r2.1.length = 0 then
          let a3 := alg.Clear r2.2.1
          let cost3 := cost2.DisableHighwayTransitions
          let mc3 := mc2.set w.mode (some cost3)
          let r3 := alg.GetBestPath a3 origin destination r2.2.2 mc3 w.mode
          let t3 := t2 ++ [Event.Clear, Event.DisableHighwayTransitions,
            Event.Log "#_passes::3", Event.GetBestPath mc3 w.mode]
          some { path_edges := r3.1, path_algorithm := r3.2.1,
                 worker := { w with reader := r3.2.2, mode_costing := mc3 }, trace := t3 }
        else
          some { path_edges := r2.1, path_algorithm := r2.2.1,
                 worker := { w with reader := r2.2.2, mode_costing := mc2 }, trace := t2 }
      else
        some { path_edges := r1.1, path_algorithm := r1.2.1,
               worker := { w with reader := r1.2.2 }, trace := t1 }
  else
    some { path_edges := r1.1, path_algorithm := r1.2.1,
           worker := { w with reader := r1.2.2 }, trace := t1 }

/-! ## The constructor and get_costing -/

/-- The names the constructor registers with the costing factory, in the order
of the `factory.Register` calls. -/
def registered_costings : List String :=
  ["auto", "auto_shorter", "bus", "bicycle", "pedestrian", "transit", "truck"]

/-- The constructor `thor_worker_t::thor_worker_t(config)`: the mode starts as pedestrian, the
seven costing methods are registered, the lists are empty and every cost-model
slot is null. The graph reader and the three algorithm instances are given. -/
def thor_worker_t.construct {α π σ ρ : Type} (config : Ptree) (reader : ρ)
    (astar bidir_astar multi_modal_astar : σ) : thor_worker_t α π σ ρ :=
  { mode := TravelMode.kPedestrian, config := config, factory := registered_costings,
    reader := reader, locations := [], correlated := [],
    mode_costing := { drive := none, pedestrian := none, bicycle := none, transit := none },
    astar := astar, bidir_astar := bidir_astar, multi_modal_astar := multi_modal_astar }

/-- The call `factory.Create(name, options)`: a fresh cost model for a registered name,
an exception for any other name. -/
def Create (sif : Sif) (factory : List String) (name : String) (options : Ptree) :
    Except String DynamicCost :=
  if name ∈ factory then
    Except.ok { costing := name, options := options, history := [] }
  else
    Except.error (sif.unregistered name)

/-- The loop of `get_costing` over the children `r` of the request subtree:
`overridden.put_child(r.first, r.second)`. -/
def merge_options (config_costing : Ptree) (request_costing : Ptree) : Ptree :=
  request_costing.children.foldl (fun overridden r => overridden.put_child r.1 r.2)
    config_costing

/-- The member `thor_worker_t::get_costing`. -/
def get_costing {α π σ ρ : Type} (sif : Sif) (w : thor_worker_t α π σ ρ)
    (request : Ptree) (costing : String) : Except String DynamicCost :=
  let method_options := "costing_options." ++ costing
  match w.config.get_child_optional method_options with
  | none => Except.error ("No costing method found for '" ++ costing ++ "'")
  | some config_costing =>
    match request.get_child_optional method_options with
    | some request_costing =>
      Create sif w.factory costing (merge_options config_costing request_costing)
    | none => Create sif w.factory costing config_costing

/-! ## init_request -/

/-- The collaborators of `baldr` used by the parser; `none` stands for a thrown
exception of any type. -/
structure Baldr (α π : Type) where
  Location_FromPtree : Ptree → Option (Location α)
  PathLocation_FromPtree : List (Location α) → Ptree → Option π

/-- The stream translators of boost for `get_optional<int>` and
`get_optional<bool>`, and `read_json`. -/
structure Boost where
  to_int : String → Option Int
  to_bool : String → Option Bool
  read_json : String → Except (Option String) Ptree

/-- The lookup `ptree::get_optional<int>(path)`. -/
def get_optional_int (boost : Boost) (t : Ptree) (path : String) : Option Int :=
  (t.get_child_optional path).bind (fun c => boost.to_int c.data)

/-- The lookup `ptree::get_optional<bool>(path)`. -/
def get_optional_bool (boost : Boost) (t : Ptree) (path : String) : Option Bool :=
  (t.get_child_optional path).bind (fun c => boost.to_bool c.data)

/-- The conversion `std::to_string` on a `size_t`: the decimal digits, most significant first. -/
def to_string (n : Nat) : String :=
  String.mk (if n = 0 then ['0'] else (Nat.digits 10 n).reverse.map Nat.digitChar)

/-- The loop over `*request_locations`: each child is parsed and pushed onto
`locations`; the flag is `false` when a `FromPtree` threw, and the locations
pushed before that stay. -/
def push_locations {α π : Type} (baldr : Baldr α π) :
    List (String × Ptree) → List (Location α) → Bool × List (Location α)
  | [], locations => (true, locations)
  | (_, location) :: rest, locations =>
    match baldr.Location_FromPtree location with
    | none => (false, locations)
    | some l => push_locations baldr rest (locations ++ [l])

/-- The assignment `locations.front().date_time_ = v`. -/
def set_front_date_time {α : Type} (v : Option String) :
    List (Location α) → List (Location α)
  | [] => []
  | l :: rest => { l with date_time_ := v } :: rest

/-- The assignment `locations.back().date_time_ = v`. -/
def set_back_date_time {α : Type} (v : Option String) :
    List (Location α) → List (Location α)
  | [] => []
  | [l] => [{ l with date_time_ := v }]
  | l :: m :: rest => l :: set_back_date_time v (m :: rest)

/-- The date-time step of `init_request`. Comparing the optional with a number
is true only for a present, equal value. -/
def apply_date_time {α : Type} (date_time_type : Option Int)
    (date_time_value : Option String) (locations : List (Location α)) :
    List (Location α) :=
  if date_time_type = some 0 then set_front_date_time (some "current") locations
  else if date_time_type = some 1 then set_front_date_time date_time_value locations
  else if date_time_type = some 2 then set_back_date_time date_time_value locations
  else locations

/-- The `do ... while(++i)` loop over `correlated_<i>`, run for at most `fuel`
iterations (`none` when they do not suffice). The flag is `false` when a
`PathLocation::FromPtree` threw. `i` is a 64-bit `size_t`: the loop also ends
when `++i` wraps to zero. -/
def correlate {α π : Type} (baldr : Baldr α π) (request : Ptree)
    (locations : List (Location α)) : Nat → Nat → List π → Option (Bool × List π)
  | 0, _, _ => none
  | fuel + 1, i, correlated =>
    match request.get_child_optional ("correlated_" ++ to_string i) with
    | none => some (true, correlated)
    | some path_location =>
      match baldr.PathLocation_FromPtree locations path_location with
      | none => some (false, correlated)
      | some c =>
        if (i + 1) % 2 ^ 64 = 0 then some (true, correlated ++ [c])
        else correlate baldr request locations fuel ((i + 1) % 2 ^ 64) (correlated ++ [c])

/-- The costing step of `init_request` for `"multimodal"`: the four slots are
assigned in order, and an exception leaves the earlier assignments in place. -/
def init_multimodal {α π σ ρ : Type} (sif : Sif) (w : thor_worker_t α π σ ρ)
    (request : Ptree) : Except String String × thor_worker_t α π σ ρ :=
  match get_costing sif w request "auto" with
  | Except.error e => (Except.error e, w)
  | Except.ok c0 =>
    let w0 := { w with mode_costing := { w.mode_costing with drive := some c0 } }
    match get_costing sif w0 request "pedestrian" with
    | Except.error e => (Except.error e, w0)
    | Except.ok c1 =>
      let w1 := { w0 with mode_costing := { w0.mode_costing with pedestrian := some c1 } }
      match get_costing sif w1 request "bicycle" with
      | Except.error e => (Except.error e, w1)
      | Except.ok c2 =>
        let w2 := { w1 with mode_costing := { w1.mode_costing with bicycle := some c2 } }
        match get_costing sif w2 request "transit" with
        | Except.error e => (Except.error e, w2)
        | Except.ok c3 =>
          let w3 := { w2 with mode_costing := { w2.mode_costing with transit := some c3 } }
          (Except.ok "multimodal", { w3 with mode := TravelMode.kPedestrian })

/-- The member `thor_worker_t::init_request`: the returned costing name or the thrown
exception, and the worker as the call leaves it (changes made before an
exception stay). The outer `none` only arises when the fuel given to the
`correlated_<i>` loop, one more than the number of children of the request,
does not suffice. The locals `id`, `units` and `distance_scale` are computed
without any effect and are left out. -/
def init_request {α π σ ρ : Type} (sif : Sif) (baldr : Baldr α π) (boost : Boost)
    (w : thor_worker_t α π σ ρ) (request : Ptree) :
    Option (Except String String × thor_worker_t α π σ ρ) :=
  -- we require locations
  match request.get_child_optional "locations" with
  | none => some (Except.error "Insufficiently specified required parameter 'locations'", w)
  | some request_locations =>
    match push_locations baldr request_locations.children w.locations with
    | (false, locations) =>
      some (Except.error "Failed to parse location", { w with locations := locations })
    | (true, locations) =>
      if locations.length < 2 then
        some (Except.error "Insufficient number of locations provided",
          { w with locations := locations })
      else
        -- type - 0: current, 1: depart, 2: arrive
        let date_time_type := get_optional_int boost request "date_time.type"
        let date_time_value := request.get_optional_string "date_time.value"
        let w1 := { w with locations := apply_date_time date_time_type date_time_value locations }
        -- we require correlated locations
        match correlate baldr request w1.locations (request.children.length + 1) 0
            w1.correlated with
        | none => none
        | some (false, correlated) =>
          some (Except.error "Failed to parse correlated location",
            { w1 with correlated := correlated })
        | some (true, correlated) =>
          let w2 := { w1 with correlated := correlated }
          -- Parse out the type of route - this provides the costing method to use
          match request.get_optional_string "costing" with
          | none => some (Except.error "No edge/node costing provided", w2)
          | some costing =>
            -- Set travel mode and construct costing
            if costing = "multimodal" then
              some (init_multimodal sif w2 request)
            else
              match get_costing sif w2 request costing with
              | Except.error e => some (Except.error e, w2)
              | Except.ok cost =>
                some (Except.ok costing,
                  { w2 with mode := sif.travelmode cost,
                            mode_costing := w2.mode_costing.set (sif.travelmode cost) (some cost) })

/-! ## work -/

/-- The enumeration `thor_worker_t::MATRIX_TYPE`. -/
inductive MATRIX_TYPE where
  | ONE_TO_MANY
  | MANY_TO_ONE
  | MANY_TO_MANY
  deriving DecidableEq, Repr

/-- The table `MATRIX`. -/
def MATRIX : List (String × MATRIX_TYPE) :=
  [("one_to_many", MATRIX_TYPE.ONE_TO_MANY),
   ("many_to_one", MATRIX_TYPE.MANY_TO_ONE),
   ("many_to_many", MATRIX_TYPE.MANY_TO_MANY)]

/-- The header `CORS`. -/
def CORS : String × String := ("Access-Control-Allow-Origin", "*")

/-- An `http_response_t` after `from_info(info)`: code, message, body, headers
and the request info it answers. -/
structure http_response_t (ι : Type) where
  code : Nat
  message : String
  body : String
  headers : List (String × String)
  info : ι

/-- How `work` ends: with a response of its own making (a `result_t{false}`
whose only message is the response), or by returning what one of the three
handlers returns for the arguments shown. The handlers are defined in other
files; the embedding stops at the call, so a handler that throws, which the
same outer `catch` would answer with status 400, is not followed. -/
inductive Outcome (π ι : Type) where
  | response (r : http_response_t ι)
  | matrix (matrix_type : MATRIX_TYPE) (costing : String) (request : Ptree) (info : ι)
  | optimized_path (correlated : List π) (costing : String) (request_str : String)
  | trip_path (costing : String) (request_str : String) (date_time_type : Option Int)

/-- The outcome of `work`, the worker it leaves, and the lines it sent to the
analytics log, oldest first. -/
structure WorkResult (α π σ ρ ι : Type) where
  outcome : Outcome π ι
  worker : thor_worker_t α π σ ρ
  log : List String

/-- The handler of the outer `catch(const std::exception& e)`. -/
def bad_request {α π σ ρ ι : Type} (w : thor_worker_t α π σ ρ) (info : ι)
    (log : List String) (what : String) : WorkResult α π σ ρ ι :=
  { outcome := Outcome.response
      { code := 400, message := "Bad Request", body := what, headers := [CORS], info := info },
    worker := w, log := log ++ ["400::" ++ what] }

/-- The member `thor_worker_t::work` on the request body `request_str`. `read_json` fails
with `some what` for a `std::exception` and with `none` for anything else. The
result is `none` only when `init_request` is. The request counter log line and
the start time are left out. -/
def work {α π σ ρ ι : Type} (sif : Sif) (baldr : Baldr α π) (boost : Boost)
    (w : thor_worker_t α π σ ρ) (request_str : String) (info : ι) :
    Option (WorkResult α π σ ρ ι) :=
  match boost.read_json request_str with
  | Except.error (some what) =>
    some { outcome := Outcome.response
             { code := 500, message := "Internal Server Error",
               body := "Failed to parse intermediate request format",
               headers := [CORS], info := info },
           worker := w, log := ["500::" ++ what] }
  | Except.error none =>
    some { outcome := Outcome.response
             { code := 500, message := "Internal Server Error",
               body := "Failed to parse intermediate request format",
               headers := [CORS], info := info },
           worker := w, log := ["500::non-std::exception"] }
  | Except.ok request =>
    -- Initialize request - get the PathALgorithm to use
    match init_request sif baldr boost w request with
    | none => none
    | some (Except.error e, w1) => some (bad_request w1 info [] e)
    | some (Except.ok costing, w1) =>
      let date_time_type := get_optional_int boost request "date_time.type"
      let matrix := request.get_optional_string "matrix_type"
      let optimized := get_optional_bool boost request "optimized"
      match matrix with
      | some m =>
        match MATRIX.lookup m with
        | some matrix_type =>
          some { outcome := Outcome.matrix matrix_type costing request info,
                 worker := w1, log := ["matrix_type::" ++ m] }
        | none =>
          -- this will never happen since loki formats the request for matrix
          some (bad_request w1 info ["matrix_type::" ++ m]
            ("Incorrect matrix_type provided:: " ++ m ++
              "  Accepted types are 'one_to_many', 'many_to_one' or 'many_to_many'."))
      | none =>
        if optimized.isSome then
          some { outcome := Outcome.optimized_path w1.correlated costing request_str,
                 worker := w1, log := [] }
        else
          some { outcome := Outcome.trip_path costing request_str date_time_type,
                 worker := w1, log := [] }

/-! ## UpdateOrigin -/

/-- A graph identifier (`baldr::GraphId`), compared by its 64-bit value. -/
structure GraphId where
  value : Nat
  deriving DecidableEq, Repr

/-- What `UpdateOrigin` reads of a `baldr::DirectedEdge`. -/
structure DirectedEdge where
  not_thru : Bool

/-- A candidate edge of a correlated location (`baldr::PathEdge`): its id, and
the rest of its data. -/
structure PathEdge (ε : Type) where
  id : GraphId
  payload : ε

/-- A correlated location (`baldr::PathLocation`): a location with its
candidate edges. -/
structure PathLocation (α ε : Type) extends Location α where
  edges : List (PathEdge ε)

/-- The call `origin.ClearEdges()`. -/
def PathLocation.ClearEdges {α ε : Type} (l : PathLocation α ε) : PathLocation α ε :=
  { l with edges := [] }

/-- The call `origin.CorrelateEdge(e)`: the edge is appended. -/
def PathLocation.CorrelateEdge {α ε : Type} (l : PathLocation α ε) (e : PathEdge ε) :
    PathLocation α ε :=
  { l with edges := l.edges ++ [e] }

/-- The interface of `baldr::GraphReader` the worker uses. `directededge` is
`reader.GetGraphTile(id)->directededge(id)`: the edge, `none` when the tile is
missing, and the reader after the lookup. -/
structure GraphReader (ρ : Type) where
  directededge : ρ → GraphId → Option DirectedEdge × ρ
  OverCommitted : ρ → Bool
  Clear : ρ → ρ

/-- The loop of `UpdateOrigin` over the copy `edges` of the origin's edges: at
the first edge with the id of the through edge the origin's edges are cleared,
that edge is correlated and the loop is left. -/
def UpdateOrigin_loop {α ε : Type} (through_edge : GraphId) :
    List (PathEdge ε) → PathLocation α ε → PathLocation α ε
  | [], origin => origin
  | e :: rest, origin =>
    if e.id = through_edge then origin.ClearEdges.CorrelateEdge e
    else UpdateOrigin_loop through_edge rest origin

/-- The member `thor_worker_t::UpdateOrigin`: the origin and the worker
afterwards; `none` when the tile of the through edge is missing and the null
pointer is dereferenced. -/
def UpdateOrigin {α π σ ρ ε : Type} (graph : GraphReader ρ) (w : thor_worker_t α π σ ρ)
    (origin : PathLocation α ε) (prior_is_node : Bool) (through_edge : GraphId) :
    Option (PathLocation α ε × thor_worker_t α π σ ρ) :=
  if prior_is_node then
    -- For now allow all edges
    some (origin, w)
  else
    match graph.directededge w.reader through_edge with
    | (none, _) => none
    | (some de, reader) =>
      if de.not_thru then some (origin, { w with reader := reader })
      else some (UpdateOrigin_loop through_edge origin.edges origin, { w with reader := reader })

/-! ## cleanup -/

/-- The member `thor_worker_t::cleanup`, given the `Clear` of each of the three
algorithm classes and the graph reader interface. -/
def cleanup {α π σ ρ : Type} (astar_Clear bidir_astar_Clear multi_modal_astar_Clear : σ → σ)
    (graph : GraphReader ρ) (w : thor_worker_t α π σ ρ) : thor_worker_t α π σ ρ :=
  { w with
    astar := astar_Clear w.astar,
    bidir_astar := bidir_astar_Clear w.bidir_astar,
    multi_modal_astar := multi_modal_astar_Clear w.multi_modal_astar,
    locations := [],
    correlated := [],
    reader := if graph.OverCommitted w.reader then graph.Clear w.reader else w.reader }

/-! ## Reference points for the statements -/

/-- The first `GetBestPath` call of `GetPath`: path, algorithm state, reader. -/
def pass1 {α π σ ρ τ : Type} (alg : PathAlgorithm π σ ρ τ) (w : thor_worker_t α π σ ρ)
    (path_algorithm : σ) (origin destination : π) : List τ × σ × ρ :=
  alg.GetBestPath path_algorithm origin destination w.reader w.mode_costing w.mode

/-- The cost-model table as the second call sees it: the active slot relaxed
with the constant 16. -/
def relaxed_costing {α π σ ρ : Type} (w : thor_worker_t α π σ ρ) (cost : DynamicCost) :
    ModeCosting :=
  w.mode_costing.set w.mode (some (cost.RelaxHierarchyLimits 16))

/-- The second `GetBestPath` call: on the cleared algorithm, with the reader as
the first call left it and the relaxed table. -/
def pass2 {α π σ ρ τ : Type} (alg : PathAlgorithm π σ ρ τ) (w : thor_worker_t α π σ ρ)
    (cost : DynamicCost) (path_algorithm : σ) (origin destination : π) : List τ × σ × ρ :=
  alg.GetBestPath (alg.Clear (pass1 alg w path_algorithm origin destination).2.1)
    origin destination (pass1 alg w path_algorithm origin destination).2.2
    (relaxed_costing w cost) w.mode

/-- The cost-model table as the third call sees it: the active slot relaxed and
with highway transitions disabled. -/
def unrestricted_costing {α π σ ρ : Type} (w : thor_worker_t α π σ ρ)
    (cost : DynamicCost) : ModeCosting :=
  (relaxed_costing w cost).set w.mode
    (some (cost.RelaxHierarchyLimits 16).DisableHighwayTransitions)

/-- The third `GetBestPath` call. -/
def pass3 {α π σ ρ τ : Type} (alg : PathAlgorithm π σ ρ τ) (w : thor_worker_t α π σ ρ)
    (cost : DynamicCost) (path_algorithm : σ) (origin destination : π) : List τ × σ × ρ :=
  alg.GetBestPath (alg.Clear (pass2 alg w cost path_algorithm origin destination).2.1)
    origin destination (pass2 alg w cost path_algorithm origin destination).2.2
    (unrestricted_costing w cost) w.mode

/-- The origin after `adjustOrigin`, in the words of the specification:
unchanged when the prior point is a node or the through edge is flagged
not-through; otherwise exactly the first candidate edge with the id of the
through edge, when there is one, and unchanged when there is none. -/
def adjustOrigin_reference {α ε : Type} (origin : PathLocation α ε) (prior_is_node : Bool)
    (not_thru : Bool) (through_edge : GraphId) : PathLocation α ε :=
  if prior_is_node = true ∨ not_thru = true then origin
  else
    match origin.edges.find? (fun e => decide (e.id = through_edge)) with
    | some e => { origin with edges := [e] }
    | none => origin

/-- The `correlated_<i>` children of the request for `i` from `start` on,
`count` of them. -/
def correlated_entries (request : Ptree) (start count : Nat) : List Ptree :=
  (List.range' start count).filterMap
    (fun i => request.get_child_optional ("correlated_" ++ to_string i))

/-- The scan of the specification over a list of entries: each is parsed and
appended in order; the flag is `false`, and the scan over, at the first entry
that does not parse. -/
def scan_entries {π : Type} (parse : Ptree → Option π) : List Ptree → List π → Bool × List π
  | [], correlated => (true, correlated)
  | e :: rest, correlated =>
    match parse e with
    | none => (false, correlated)
    | some c => scan_entries parse rest (correlated ++ [c])

/-- The top-level keys of a tree, in order. -/
def Ptree.keys (t : Ptree) : List String :=
  t.children.map Prod.fst

/-! ## Concrete collaborators for the worked examples -/

/-- A `sif` in which only pedestrian and transit models refuse a second pass. -/
def demoSif : Sif :=
  { travelmode := fun c =>
      if c.costing = "pedestrian" then TravelMode.kPedestrian
      else if c.costing = "bicycle" then TravelMode.kBicycle
      else if c.costing = "transit" then TravelMode.kPublicTransit
      else TravelMode.kDrive,
    AllowMultiPass := fun c => !(c.costing == "pedestrian" || c.costing == "transit"),
    unregistered := fun name => "No costing method found for '" ++ name ++ "'" }

/-- A search that finds the one-edge path `[42]` once the active cost model has
received at least `needed` relaxing calls; its state counts the calls since the
last `Clear`. -/
def demoAlgorithm (needed : Nat) : PathAlgorithm Unit Nat Unit Nat :=
  { GetBestPath := fun s _ _ r mode_costing mode =>
      match mode_costing.get mode with
      | some c => (if needed ≤ c.history.length then [42] else [], s + 1, r)
      | none => ([], s + 1, r),
    Clear := fun _ => 0 }

/-- A fresh cost model for a name, with empty options. -/
def demoCost (name : String) : DynamicCost :=
  { costing := name, options := Ptree.empty, history := [] }

/-- A worker whose active mode has the cost model of the given name. -/
def demoWorker (name : String) : thor_worker_t Unit Unit Nat Unit :=
  { (thor_worker_t.construct Ptree.empty () 0 0 0 : thor_worker_t Unit Unit Nat Unit) with
    mode := demoSif.travelmode (demoCost name),
    mode_costing :=
      ({ drive := none, pedestrian := none, bicycle := none, transit := none } :
        ModeCosting).set (demoSif.travelmode (demoCost name)) (some (demoCost name)) }

/-- A leaf of a property tree: data only. -/
def leaf (data : String) : Ptree := Ptree.mk data []

/-- An inner node of a property tree: children only. -/
def node (children : List (String × Ptree)) : Ptree := Ptree.mk "" children

/-- A server configuration with default options for four costing methods. -/
def demoConfig : Ptree :=
  node [("costing_options", node [
    ("auto", node [("maneuver_penalty", leaf "5"), ("country_crossing", node [
      ("cost", leaf "600"), ("penalty", leaf "0")])]),
    ("pedestrian", node [("walking_speed", leaf "5.1")]),
    ("bicycle", node [("cycling_speed", leaf "25")]),
    ("transit", node [("use_bus", leaf "0.5")])])]

/-- A freshly constructed worker serving `demoConfig`. -/
def demoServer : thor_worker_t Ptree Ptree Nat Unit :=
  thor_worker_t.construct demoConfig () 0 0 0

/-- A freshly constructed worker whose configuration has no costing options. -/
def bareServer : thor_worker_t Ptree Ptree Nat Unit :=
  thor_worker_t.construct (node []) () 0 0 0

/-- A location parser that wants a `lat` and a `lon` child and keeps the tree
as payload, and a correlated-location parser that wants an `edges` child. -/
def demoBaldr : Baldr Ptree Ptree :=
  { Location_FromPtree := fun t =>
      match Ptree.find "lat" t.children, Ptree.find "lon" t.children with
      | some _, some _ => some { payload := t, date_time_ := none }
      | _, _ => none,
    PathLocation_FromPtree := fun _ t =>
      match Ptree.find "edges" t.children with
      | some _ => some t
      | none => none }

/-- The location `{"lat":lat,"lon":lon}` as `read_json` builds it. -/
def latlon (lat lon : String) : Ptree :=
  node [("lat", leaf lat), ("lon", leaf lon)]

/-- Scenario A: two locations and costing `auto`. -/
def docA : Ptree :=
  node [("locations", node [("", latlon "1" "1"), ("", latlon "2" "2")]),
    ("costing", leaf "auto")]

/-- Scenario B: a single location. -/
def docB : Ptree :=
  node [("locations", node [("", latlon "1" "1")]), ("costing", leaf "auto")]

/-- Scenario C: scenario A with `"matrix_type":"many_to_many"`. -/
def docC : Ptree :=
  node (docA.children ++ [("matrix_type", leaf "many_to_many")])

/-- Scenario D: scenario A with `"matrix_type":"bogus"`. -/
def docD : Ptree :=
  node (docA.children ++ [("matrix_type", leaf "bogus")])

/-- Scenario A with `"optimized":false`. -/
def docOptimizedFalse : Ptree :=
  node (docA.children ++ [("optimized", leaf "false")])

/-- Scenario A with `"optimized":true`. -/
def docOptimizedTrue : Ptree :=
  node (docA.children ++ [("optimized", leaf "true")])

/-- The request body of scenario A. -/
def bodyA : String :=
  "\x7b\"locations\":[\x7b\"lat\":1,\"lon\":1\x7d,\x7b\"lat\":2,\"lon\":2\x7d],\"costing\":\"auto\"\x7d"

/-- The request body of scenario B. -/
def bodyB : String :=
  "\x7b\"locations\":[\x7b\"lat\":1,\"lon\":1\x7d],\"costing\":\"auto\"\x7d"

/-- The request body of scenario C. -/
def bodyC : String :=
  "\x7b\"locations\":[\x7b\"lat\":1,\"lon\":1\x7d,\x7b\"lat\":2,\"lon\":2\x7d],\"costing\":\"auto\",\"matrix_type\":\"many_to_many\"\x7d"

/-- The request body of scenario D. -/
def bodyD : String :=
  "\x7b\"locations\":[\x7b\"lat\":1,\"lon\":1\x7d,\x7b\"lat\":2,\"lon\":2\x7d],\"costing\":\"auto\",\"matrix_type\":\"bogus\"\x7d"

/-- The request body of scenario A with `"optimized":false`. -/
def bodyOptimizedFalse : String :=
  "\x7b\"locations\":[\x7b\"lat\":1,\"lon\":1\x7d,\x7b\"lat\":2,\"lon\":2\x7d],\"costing\":\"auto\",\"optimized\":false\x7d"

/-- The request body of scenario A with `"optimized":true`. -/
def bodyOptimizedTrue : String :=
  "\x7b\"locations\":[\x7b\"lat\":1,\"lon\":1\x7d,\x7b\"lat\":2,\"lon\":2\x7d],\"costing\":\"auto\",\"optimized\":true\x7d"

/-- The documents the example reader knows, by body. -/
def demoDocuments : List (String × Ptree) :=
  [(bodyA, docA), (bodyB, docB), (bodyC, docC), (bodyD, docD),
   (bodyOptimizedFalse, docOptimizedFalse), (bodyOptimizedTrue, docOptimizedTrue)]

/-- Translators for the few numerals and truth values of the examples, and a
reader that knows the example bodies and rejects every other body with an error
text quoting it. -/
def demoBoost : Boost :=
  { to_int := fun s =>
      if s = "0" then some 0 else if s = "1" then some 1 else if s = "2" then some 2
      else if s = "3" then some 3 else none,
    to_bool := fun s =>
      if s = "true" ∨ s = "1" then some true
      else if s = "false" ∨ s = "0" then some false else none,
    read_json := fun body =>
      match demoDocuments.lookup body with
      | some t => Except.ok t
      | none => Except.error (some ("<unspecified file>(1): cannot read: " ++ body)) }

/-- The two parsed locations of scenario A. -/
def demoLocations : List (Location Ptree) :=
  [{ payload := latlon "1" "1", date_time_ := none },
   { payload := latlon "2" "2", date_time_ := none }]

/-- The worker `demoServer` after a successful `init_request` of scenario A. -/
def demoServerA : thor_worker_t Ptree Ptree Nat Unit :=
  { demoServer with
    mode := TravelMode.kDrive,
    locations := demoLocations,
    mode_costing :=
      { drive := some { costing := "auto",
                        options := node [("maneuver_penalty", leaf "5"),
                          ("country_crossing", node [("cost", leaf "600"),
                            ("penalty", leaf "0")])],
                        history := [] },
        pedestrian := none, bicycle := none, transit := none } }

/-- The base options of `auto` in `demoConfig`. -/
def autoBase : Ptree :=
  node [("maneuver_penalty", leaf "5"),
    ("country_crossing", node [("cost", leaf "600"), ("penalty", leaf "0")])]

/-- An override subtree with the single key `country_crossing.cost`, as
`read_json` builds it from `{"country_crossing.cost":1}`. -/
def dottedOverride : Ptree :=
  node [("country_crossing.cost", leaf "1")]

/-- Scenario A with the request options `dottedOverride` for `auto`. -/
def docDotted : Ptree :=
  node (docA.children ++ [("costing_options", node [("auto", dottedOverride)])])

/-- Scenario A with an empty override subtree `"costing_options":{"auto":{}}`,
which `read_json` builds as a node without data or children. -/
def docEmptyOverride : Ptree :=
  node (docA.children ++ [("costing_options", node [("auto", node [])])])

/-- A graph reader whose state counts the tiles looked up: edge 7 enters a
not-through region, edges above 99 have no tile, and the cache is over-committed
from three lookups on. -/
def demoGraph : GraphReader Nat :=
  { directededge := fun r id =>
      (if 99 < id.value then none else some { not_thru := decide (id.value = 7) }, r + 1),
    OverCommitted := fun r => decide (3 ≤ r),
    Clear := fun _ => 0 }

/-- A worker with a counting graph reader and counting algorithm states. -/
def demoGraphWorker (reader : Nat) : thor_worker_t Ptree Ptree Nat Nat :=
  { (thor_worker_t.construct demoConfig reader 5 6 7 : thor_worker_t Ptree Ptree Nat Nat) with
    locations := demoLocations,
    correlated := [latlon "1" "1"] }

/-- An origin with three candidate edges, two of them with id 4. -/
def demoOrigin : PathLocation Ptree String :=
  { payload := latlon "1" "1", date_time_ := none,
    edges := [{ id := { value := 3 }, payload := "first" },
              { id := { value := 4 }, payload := "second" },
              { id := { value := 4 }, payload := "third" }] }

/-- Scenario A with `"date_time":{"type":2,"value":"2016-07-03T08:06"}`. -/
def docArriveBy : Ptree :=
  node (docA.children ++
    [("date_time", node [("type", leaf "2"), ("value", leaf "2016-07-03T08:06")])])

/-- Scenario A with costing `pedestrian`. -/
def docPedestrian : Ptree :=
  node [("locations", node [("", latlon "1" "1"), ("", latlon "2" "2")]),
    ("costing", leaf "pedestrian")]

/-- Scenario A with costing `multimodal`. -/
def docMultimodal : Ptree :=
  node [("locations", node [("", latlon "1" "1"), ("", latlon "2" "2")]),
    ("costing", leaf "multimodal")]

/-- A freshly constructed worker serving `demoConfig`, with a counting graph
reader and counting algorithm states. -/
def freshWorker : thor_worker_t Ptree Ptree Nat Nat :=
  thor_worker_t.construct demoConfig 0 0 0 0

/-- The `cleanup` of the example worker: every algorithm is cleared to state 0
and the reader is `demoGraph`. -/
def demoCleanup (w : thor_worker_t Ptree Ptree Nat Nat) : thor_worker_t Ptree Ptree Nat Nat :=
  cleanup (fun _ => 0) (fun _ => 0) (fun _ => 0) demoGraph w

/-- The worker a request leaves behind for the next one: `init_request` on the
document, then `cleanup`. A run out of fuel leaves the worker as it was. -/
def afterRequest (w : thor_worker_t Ptree Ptree Nat Nat) (request : Ptree) :
    thor_worker_t Ptree Ptree Nat Nat :=
  match init_request demoSif demoBaldr demoBoost w request with
  | some (_, w1) => demoCleanup w1
  | none => w

/-- The locations as the date-time step of `init_request` leaves them: the
list the correlated locations are parsed against. -/
def dated_locations {α : Type} (boost : Boost) (request : Ptree)
    (locations : List (Location α)) : List (Location α) :=
  apply_date_time (get_optional_int boost request "date_time.type")
    (request.get_optional_string "date_time.value") locations

/-- A correlated location with one edge, as `read_json` builds it. -/
def correlatedEntry (edge : String) : Ptree :=
  node [("edges", node [("", node [("id", leaf edge)])])]

/-- Scenario A with the entries `correlated_0`, `correlated_1` and, behind a
gap, `correlated_3`, which has no edges and would not parse. -/
def docCorrelated : Ptree :=
  node (docA.children ++ [("correlated_0", correlatedEntry "10"),
    ("correlated_1", correlatedEntry "11"), ("correlated_3", node [])])

/-- An override that names `country_crossing` with a subtree of its own and
adds the new key `use_tolls`. -/
def nestedOverride : Ptree :=
  node [("country_crossing", node [("cost", leaf "1")]), ("use_tolls", leaf "0")]

/-! ## GetPath: the bounded three-pass retry -/

/-- C1. Single pass: when the first `GetBestPath` call finds a path, or finds
none while the active cost model refuses multi-pass, `GetPath` returns with
exactly that first result in `path_edges`; the only calls made are the log line
and one `GetBestPath`, so `Clear`, `RelaxHierarchyLimits` and
`DisableHighwayTransitions` are not called and the table is untouched. -/
theorem GetPath_single_pass {α π σ ρ τ : Type} (sif : Sif) (alg : PathAlgorithm π σ ρ τ)
    (w : thor_worker_t α π σ ρ) (path_algorithm : σ) (origin destination : π)
    (h : (pass1 alg w path_algorithm origin destination).1 ≠ [] ∨
      ((pass1 alg w path_algorithm origin destination).1 = [] ∧
        ∃ cost, w.mode_costing.get w.mode = some cost ∧ sif.AllowMultiPass cost = false)) :
    ∃ r, GetPath sif alg w path_algorithm origin destination = some r ∧
      r.path_edges = (pass1 alg w path_algorithm origin destination).1 ∧
      r.trace = [Event.Log "#_passes::1", Event.GetBestPath w.mode_costing w.mode] ∧
      r.trace.countP Event.isGetBestPath = 1 ∧
      r.trace.countP Event.isClear = 0 ∧
      r.trace.countP Event.isRelax = 0 ∧
      r.trace.countP Event.isDisable = 0 ∧
      r.worker.mode_costing = w.mode_costing := by
  unfold pass1 at h
  rcases h with h | ⟨h, cost, hcost, hallow⟩
  · refine ⟨{ path_edges := (pass1 alg w path_algorithm origin destination).1,
              path_algorithm := (pass1 alg w path_algorithm origin destination).2.1,
              worker := { w with reader := (pass1 alg w path_algorithm origin destination).2.2 },
              trace := [Event.Log "#_passes::1", Event.GetBestPath w.mode_costing w.mode] },
            ?_, rfl, rfl, rfl, rfl, rfl, rfl, rfl⟩
    unfold GetPath
    simp [pass1, h]
  · refine ⟨{ path_edges := (pass1 alg w path_algorithm origin destination).1,
              path_algorithm := (pass1 alg w path_algorithm origin destination).2.1,
              worker := { w with reader := (pass1 alg w path_algorithm origin destination).2.2 },
              trace := [Event.Log "#_passes::1", Event.GetBestPath w.mode_costing w.mode] },
            ?_, rfl, rfl, rfl, rfl, rfl, rfl, rfl⟩
    unfold GetPath
    simp [pass1, h, hcost, hallow]

/-- C1, at a search that succeeds at once for a driving model, and so makes a
single call. -/
theorem GetPath_single_pass_witness :
    ((pass1 (demoAlgorithm 0) (demoWorker "auto") 0 () ()).1 ≠ [] ∨
      ((pass1 (demoAlgorithm 0) (demoWorker "auto") 0 () ()).1 = [] ∧
        ∃ cost, (demoWorker "auto").mode_costing.get (demoWorker "auto").mode = some cost ∧
          demoSif.AllowMultiPass cost = false)) ∧
    ∃ r, GetPath demoSif (demoAlgorithm 0) (demoWorker "auto") 0 () () = some r ∧
      r.path_edges = (pass1 (demoAlgorithm 0) (demoWorker "auto") 0 () ()).1 ∧
      r.trace = [Event.Log "#_passes::1",
        Event.GetBestPath (demoWorker "auto").mode_costing (demoWorker "auto").mode] ∧
      r.trace.countP Event.isGetBestPath = 1 ∧
      r.trace.countP Event.isClear = 0 ∧
      r.trace.countP Event.isRelax = 0 ∧
      r.trace.countP Event.isDisable = 0 ∧
      r.worker.mode_costing = (demoWorker "auto").mode_costing :=
  ⟨Or.inl (by decide),
    GetPath_single_pass demoSif (demoAlgorithm 0) (demoWorker "auto") 0 () ()
      (Or.inl (by decide))⟩

/-- Reading back the slot that was just assigned. -/
theorem ModeCosting.get_set (t : ModeCosting) (mode : TravelMode) (c : Option DynamicCost) :
    (t.set mode c).get mode = c := by
  cases mode <;> rfl

/-- C2. Third pass: with multi-pass allowed and the first two `GetBestPath`
calls both empty, `GetPath` makes a third call, right after `Clear` on the
algorithm and `DisableHighwayTransitions` on the active model; `path_edges` is
the third result whatever it is, and there are exactly three `GetBestPath`
calls. -/
theorem GetPath_third_pass {α π σ ρ τ : Type} (sif : Sif) (alg : PathAlgorithm π σ ρ τ)
    (w : thor_worker_t α π σ ρ) (path_algorithm : σ) (origin destination : π)
    (cost : DynamicCost) (hcost : w.mode_costing.get w.mode = some cost)
    (hallow : sif.AllowMultiPass cost = true)
    (h1 : (pass1 alg w path_algorithm origin destination).1 = [])
    (h2 : (pass2 alg w cost path_algorithm origin destination).1 = []) :
    ∃ r, GetPath sif alg w path_algorithm origin destination = some r ∧
      r.path_edges = (pass3 alg w cost path_algorithm origin destination).1 ∧
      r.trace = [Event.Log "#_passes::1", Event.GetBestPath w.mode_costing w.mode,
        Event.Clear, Event.RelaxHierarchyLimits 16, Event.Log "#_passes::2",
        Event.GetBestPath (relaxed_costing w cost) w.mode,
        Event.Clear, Event.DisableHighwayTransitions, Event.Log "#_passes::3",
        Event.GetBestPath (unrestricted_costing w cost) w.mode] ∧
      r.trace.countP Event.isGetBestPath = 3 ∧
      r.worker.mode_costing.get w.mode =
        some { cost with history := cost.history ++
          [CostCall.RelaxHierarchyLimits 16, CostCall.DisableHighwayTransitions] } := by
  refine ⟨{ path_edges := (pass3 alg w cost path_algorithm origin destination).1,
            path_algorithm := (pass3 alg w cost path_algorithm origin destination).2.1,
            worker := { w with
              reader := (pass3 alg w cost path_algorithm origin destination).2.2,
              mode_costing := unrestricted_costing w cost },
            trace := [Event.Log "#_passes::1", Event.GetBestPath w.mode_costing w.mode,
              Event.Clear, Event.RelaxHierarchyLimits 16, Event.Log "#_passes::2",
              Event.GetBestPath (relaxed_costing w cost) w.mode,
              Event.Clear, Event.DisableHighwayTransitions, Event.Log "#_passes::3",
              Event.GetBestPath (unrestricted_costing w cost) w.mode] },
          ?_, rfl, rfl, rfl, ?_⟩
  · unfold pass2 pass1 relaxed_costing at h2
    unfold pass1 at h1
    unfold GetPath
    simp [pass3, pass2, pass1, relaxed_costing, unrestricted_costing, h1, h2, hcost, hallow]
  · simp [unrestricted_costing, ModeCosting.get_set, DynamicCost.RelaxHierarchyLimits,
      DynamicCost.DisableHighwayTransitions]

/-- C2, at a search that never finds a path for a driving model: three calls,
the last one final. -/
theorem GetPath_third_pass_witness :
    (demoWorker "auto").mode_costing.get (demoWorker "auto").mode = some (demoCost "auto") ∧
    demoSif.AllowMultiPass (demoCost "auto") = true ∧
    (pass1 (demoAlgorithm 3) (demoWorker "auto") 0 () ()).1 = [] ∧
    (pass2 (demoAlgorithm 3) (demoWorker "auto") (demoCost "auto") 0 () ()).1 = [] ∧
    ∃ r, GetPath demoSif (demoAlgorithm 3) (demoWorker "auto") 0 () () = some r ∧
      r.path_edges = (pass3 (demoAlgorithm 3) (demoWorker "auto") (demoCost "auto") 0 () ()).1 ∧
      r.trace = [Event.Log "#_passes::1",
        Event.GetBestPath (demoWorker "auto").mode_costing (demoWorker "auto").mode,
        Event.Clear, Event.RelaxHierarchyLimits 16, Event.Log "#_passes::2",
        Event.GetBestPath (relaxed_costing (demoWorker "auto") (demoCost "auto"))
          (demoWorker "auto").mode,
        Event.Clear, Event.DisableHighwayTransitions, Event.Log "#_passes::3",
        Event.GetBestPath (unrestricted_costing (demoWorker "auto") (demoCost "auto"))
          (demoWorker "auto").mode] ∧
      r.trace.countP Event.isGetBestPath = 3 ∧
      r.worker.mode_costing.get (demoWorker "auto").mode =
        some { demoCost "auto" with history := (demoCost "auto").history ++
          [CostCall.RelaxHierarchyLimits 16, CostCall.DisableHighwayTransitions] } :=
  ⟨rfl, by decide, by decide, by decide,
    GetPath_third_pass demoSif (demoAlgorithm 3) (demoWorker "auto") 0 () ()
      (demoCost "auto") rfl (by decide) (by decide) (by decide)⟩

/-- C3. Second pass: with the first `GetBestPath` call empty and multi-pass
allowed, `GetPath` clears the algorithm and relaxes the hierarchy limits of the
active model with the constant 16 before calling `GetBestPath` again on the
relaxed table; a non-empty second result is the returned `path_edges`, after
exactly two `GetBestPath` calls and no `DisableHighwayTransitions`. -/
theorem GetPath_second_pass {α π σ ρ τ : Type} (sif : Sif) (alg : PathAlgorithm π σ ρ τ)
    (w : thor_worker_t α π σ ρ) (path_algorithm : σ) (origin destination : π)
    (cost : DynamicCost) (hcost : w.mode_costing.get w.mode = some cost)
    (hallow : sif.AllowMultiPass cost = true)
    (h1 : (pass1 alg w path_algorithm origin destination).1 = []) :
    ∃ r, GetPath sif alg w path_algorithm origin destination = some r ∧
      r.trace.take 6 = [Event.Log "#_passes::1", Event.GetBestPath w.mode_costing w.mode,
        Event.Clear, Event.RelaxHierarchyLimits 16, Event.Log "#_passes::2",
        Event.GetBestPath (relaxed_costing w cost) w.mode] ∧
      (relaxed_costing w cost).get w.mode =
        some { cost with history := cost.history ++ [CostCall.RelaxHierarchyLimits 16] } ∧
      ((pass2 alg w cost path_algorithm origin destination).1 ≠ [] →
        r.path_edges = (pass2 alg w cost path_algorithm origin destination).1 ∧
        r.trace.length = 6 ∧
        r.trace.countP Event.isGetBestPath = 2 ∧
        r.trace.countP Event.isDisable = 0 ∧
        r.worker.mode_costing = relaxed_costing w cost) := by
  have hget : (relaxed_costing w cost).get w.mode =
      some { cost with history := cost.history ++ [CostCall.RelaxHierarchyLimits 16] } := by
    simp [relaxed_costing, ModeCosting.get_set, DynamicCost.RelaxHierarchyLimits]
  unfold pass1 at h1
  by_cases h2 : (pass2 alg w cost path_algorithm origin destination).1 = []
  · refine ⟨{ path_edges := (pass3 alg w cost path_algorithm origin destination).1,
              path_algorithm := (pass3 alg w cost path_algorithm origin destination).2.1,
              worker := { w with
                reader := (pass3 alg w cost path_algorithm origin destination).2.2,
                mode_costing := unrestricted_costing w cost },
              trace := [Event.Log "#_passes::1", Event.GetBestPath w.mode_costing w.mode,
                Event.Clear, Event.RelaxHierarchyLimits 16, Event.Log "#_passes::2",
                Event.GetBestPath (relaxed_costing w cost) w.mode,
                Event.Clear, Event.DisableHighwayTransitions, Event.Log "#_passes::3",
                Event.GetBestPath (unrestricted_costing w cost) w.mode] },
            ?_, rfl, hget, fun h => absurd h2 h⟩
    unfold pass2 pass1 relaxed_costing at h2
    unfold GetPath
    simp [pass3, pass2, pass1, relaxed_costing, unrestricted_costing, h1, h2, hcost, hallow]
  · refine ⟨{ path_edges := (pass2 alg w cost path_algorithm origin destination).1,
              path_algorithm := (pass2 alg w cost path_algorithm origin destination).2.1,
              worker := { w with
                reader := (pass2 alg w cost path_algorithm origin destination).2.2,
                mode_costing := relaxed_costing w cost },
              trace := [Event.Log "#_passes::1", Event.GetBestPath w.mode_costing w.mode,
                Event.Clear, Event.RelaxHierarchyLimits 16, Event.Log "#_passes::2",
                Event.GetBestPath (relaxed_costing w cost) w.mode] },
            ?_, rfl, hget, fun _ => ⟨rfl, rfl, rfl, rfl, rfl⟩⟩
    unfold pass2 pass1 relaxed_costing at h2
    unfold GetPath
    simp [pass2, pass1, relaxed_costing, h1, h2, hcost, hallow]

/-- C3, at a search that needs the relaxed limits: the second call finds the
path and no third call is made. -/
theorem GetPath_second_pass_witness :
    (demoWorker "auto").mode_costing.get (demoWorker "auto").mode = some (demoCost "auto") ∧
    demoSif.AllowMultiPass (demoCost "auto") = true ∧
    (pass1 (demoAlgorithm 1) (demoWorker "auto") 0 () ()).1 = [] ∧
    ∃ r, GetPath demoSif (demoAlgorithm 1) (demoWorker "auto") 0 () () = some r ∧
      r.trace.take 6 = [Event.Log "#_passes::1",
        Event.GetBestPath (demoWorker "auto").mode_costing (demoWorker "auto").mode,
        Event.Clear, Event.RelaxHierarchyLimits 16, Event.Log "#_passes::2",
        Event.GetBestPath (relaxed_costing (demoWorker "auto") (demoCost "auto"))
          (demoWorker "auto").mode] ∧
      (relaxed_costing (demoWorker "auto") (demoCost "auto")).get (demoWorker "auto").mode =
        some { demoCost "auto" with
          history := (demoCost "auto").history ++ [CostCall.RelaxHierarchyLimits 16] } ∧
      ((pass2 (demoAlgorithm 1) (demoWorker "auto") (demoCost "auto") 0 () ()).1 ≠ [] →
        r.path_edges =
          (pass2 (demoAlgorithm 1) (demoWorker "auto") (demoCost "auto") 0 () ()).1 ∧
        r.trace.length = 6 ∧
        r.trace.countP Event.isGetBestPath = 2 ∧
        r.trace.countP Event.isDisable = 0 ∧
        r.worker.mode_costing = relaxed_costing (demoWorker "auto") (demoCost "auto")) :=
  ⟨rfl, by decide, by decide,
    GetPath_second_pass demoSif (demoAlgorithm 1) (demoWorker "auto") 0 () ()
      (demoCost "auto") rfl (by decide) (by decide)⟩

/-! ## Paths without a separator, and the decimal index keys -/

/-- Splitting a separator-free character list gives one fragment. -/
theorem Ptree.splitPath_of_no_dot (cs cur : List Char) (h : '.' ∉ cs) :
    Ptree.splitPath cs cur = [String.mk (cur.reverse ++ cs)] := by
  induction cs generalizing cur with
  | nil => simp [Ptree.splitPath]
  | cons c cs ih =>
    have hc : c ≠ '.' := fun e => h (by simp [e])
    have hcs : '.' ∉ cs := fun e => h (by simp [e])
    simp [Ptree.splitPath, hc, ih (c :: cur) hcs]

/-- A key without separator is put as a single fragment. -/
theorem Ptree.put_child_of_no_dot (t : Ptree) (key : String) (value : Ptree)
    (h : '.' ∉ key.data) :
    t.put_child key value = Ptree.mk t.data (Ptree.putHere key value t.children) := by
  cases t with
  | mk d cs =>
    simp [Ptree.put_child, Ptree.splitPath_of_no_dot _ _ h, Ptree.putFragments, Ptree.data,
      Ptree.children]

/-- A non-empty key without separator is looked up among the children. -/
theorem Ptree.get_child_optional_of_no_dot (t : Ptree) (key : String)
    (h : '.' ∉ key.data) (hne : key ≠ "") :
    t.get_child_optional key = Ptree.find key t.children := by
  simp only [Ptree.get_child_optional, Ptree.walkFragments, Ptree.splitPath_of_no_dot _ _ h,
    List.reverse_nil, List.nil_append, Ptree.dropLastEmpty, hne, if_false, Ptree.walk_path]
  cases Ptree.find key t.children <;> rfl

/-- A key that `find` finds is the key of some child. -/
theorem Ptree.mem_keys_of_find (key : String) (cs : List (String × Ptree)) (v : Ptree)
    (h : Ptree.find key cs = some v) : key ∈ cs.map Prod.fst := by
  induction cs with
  | nil => simp [Ptree.find] at h
  | cons c cs ih =>
    obtain ⟨k, x⟩ := c
    by_cases hk : k = key
    · simp [hk]
    · simp only [Ptree.find, hk, if_false] at h
      simp [ih h]

/-- A decimal digit character is not the separator. -/
theorem digitChar_ne_dot (d : Nat) (hd : d < 10) : Nat.digitChar d ≠ '.' := by
  interval_cases d <;> decide

/-- The value of a decimal digit character. -/
theorem digitChar_toNat (d : Nat) (hd : d < 10) : (Nat.digitChar d).toNat - 48 = d := by
  interval_cases d <;> decide

/-- The digits of `to_string n`, read back as numbers. -/
theorem to_string_values (n : Nat) :
    (to_string n).data.map (fun c => c.toNat - 48) =
      if n = 0 then [0] else (Nat.digits 10 n).reverse := by
  by_cases hn : n = 0
  · subst hn
    simp [to_string]
  · simp only [to_string, hn, if_false, List.map_map]
    conv_rhs => rw [← List.map_id (Nat.digits 10 n).reverse]
    apply List.map_congr_left
    intro d hd
    have : d < 10 := Nat.digits_lt_base (by norm_num) (List.mem_reverse.mp hd)
    simpa using digitChar_toNat d this

/-- Distinct numbers have distinct decimal strings. -/
theorem to_string_injective : Function.Injective to_string := by
  intro a b h
  have hv := congrArg (fun s : String => s.data.map (fun c => c.toNat - 48)) h
  simp only [to_string_values] at hv
  by_cases ha : a = 0 <;> by_cases hb : b = 0
  · rw [ha, hb]
  · exfalso
    simp only [ha, hb, if_true, if_false] at hv
    have hd : Nat.digits 10 b = [0] := by
      have := congrArg List.reverse hv
      simpa using this.symm
    have hl := Nat.getLast_digit_ne_zero 10 hb
    simp [hd] at hl
  · exfalso
    simp only [ha, hb, if_true, if_false] at hv
    have hd : Nat.digits 10 a = [0] := by
      have := congrArg List.reverse hv
      simpa using this
    have hl := Nat.getLast_digit_ne_zero 10 ha
    simp [hd] at hl
  · simp only [ha, hb, if_false] at hv
    exact Nat.digits_inj_iff.mp (List.reverse_injective hv)

/-- The decimal string of a number has no separator. -/
theorem to_string_no_dot (n : Nat) : '.' ∉ (to_string n).data := by
  by_cases hn : n = 0
  · subst hn
    simp [to_string]
  · simp only [to_string, hn, if_false, List.mem_map, List.mem_reverse, not_exists, not_and]
    intro d hd
    exact digitChar_ne_dot d (Nat.digits_lt_base (by norm_num) hd)

/-- The key `correlated_<i>` is looked up among the children of the request. -/
theorem get_correlated_eq_find (request : Ptree) (i : Nat) :
    request.get_child_optional ("correlated_" ++ to_string i) =
      Ptree.find ("correlated_" ++ to_string i) request.children := by
  apply Ptree.get_child_optional_of_no_dot
  · rw [String.data_append]
    intro h
    rcases List.mem_append.mp h with h | h
    · revert h
      decide
    · exact to_string_no_dot i h
  · intro h
    have hl := congrArg String.length h
    rw [String.length_append] at hl
    have h11 : "correlated_".length = 11 := by decide
    have h0 : "".length = 0 := by decide
    omega

/-- Distinct indices give distinct keys. -/
theorem correlated_key_injective :
    Function.Injective (fun i : Nat => "correlated_" ++ to_string i) := by
  intro a b h
  have hd := congrArg String.data h
  simp only [String.data_append] at hd
  have := List.append_cancel_left hd
  exact to_string_injective (String.ext this)

/-- Some index not larger than the number of children has no `correlated_<i>`
child: the scan always meets a gap. -/
theorem exists_absent_correlated (request : Ptree) :
    ∃ j, j ≤ request.children.length ∧
      request.get_child_optional ("correlated_" ++ to_string j) = none := by
  by_contra hcon
  push_neg at hcon
  have hsub : (List.range (request.children.length + 1)).map
      (fun i : Nat => "correlated_" ++ to_string i) ⊆ request.children.map Prod.fst := by
    intro k hk
    obtain ⟨i, hi, rfl⟩ := List.mem_map.mp hk
    have hi2 : i ≤ request.children.length := Nat.lt_succ_iff.mp (List.mem_range.mp hi)
    have hne := hcon i hi2
    rw [get_correlated_eq_find] at hne
    obtain ⟨v, hv⟩ := Option.ne_none_iff_exists'.mp hne
    exact Ptree.mem_keys_of_find _ _ v hv
  have hnd : ((List.range (request.children.length + 1)).map
      (fun i : Nat => "correlated_" ++ to_string i)).Nodup :=
    List.Nodup.map correlated_key_injective (List.nodup_range _)
  have hlen := (List.subperm_of_subset hnd hsub).length_le
  simp at hlen

/-- The `correlated_<i>` loop returns whenever a gap lies within reach of the
fuel. -/
theorem correlate_returns {α π : Type} (baldr : Baldr α π) (request : Ptree)
    (locations : List (Location α)) (fuel i : Nat) (correlated : List π)
    (hi : i < 2 ^ 64)
    (h : ∃ j, i ≤ j ∧ j < i + fuel ∧
      request.get_child_optional ("correlated_" ++ to_string j) = none) :
    ∃ r, correlate baldr request locations fuel i correlated = some r := by
  induction fuel generalizing i correlated with
  | zero =>
    obtain ⟨j, h1, h2, _⟩ := h
    omega
  | succ fuel ih =>
    obtain ⟨j, h1, h2, h3⟩ := h
    unfold correlate
    split
    · exact ⟨_, rfl⟩
    · rename_i path_location hp
      split
      · exact ⟨_, rfl⟩
      · rename_i c hq
        by_cases hw : (i + 1) % 2 ^ 64 = 0
        · rw [if_pos hw]
          exact ⟨_, rfl⟩
        · rw [if_neg hw]
          have hij : i ≠ j := by
            intro e
            rw [e, h3] at hp
            cases hp
          have hlt : i + 1 < 2 ^ 64 := by
            rcases Nat.lt_or_ge (i + 1) (2 ^ 64) with h' | h'
            · exact h'
            · exfalso
              have : i + 1 = 2 ^ 64 := by omega
              rw [this] at hw
              simp at hw
          rw [Nat.mod_eq_of_lt hlt]
          exact ih (i + 1) _ hlt ⟨j, by omega, by omega, h3⟩

/-- The parser always returns: the fuel it gives to the `correlated_<i>` loop
suffices for every request. -/
theorem init_request_returns {α π σ ρ : Type} (sif : Sif) (baldr : Baldr α π) (boost : Boost)
    (w : thor_worker_t α π σ ρ) (request : Ptree) :
    ∃ r, init_request sif baldr boost w request = some r := by
  unfold init_request
  cases request.get_child_optional "locations" with
  | none => exact ⟨_, rfl⟩
  | some request_locations =>
    simp only
    rcases push_locations baldr request_locations.children w.locations with ⟨ok, locations⟩
    cases ok with
    | false => exact ⟨_, rfl⟩
    | true =>
      simp only
      split
      · exact ⟨_, rfl⟩
      · obtain ⟨j, hj, habs⟩ := exists_absent_correlated request
        obtain ⟨r, hr⟩ := correlate_returns baldr request
          (apply_date_time (get_optional_int boost request "date_time.type")
            (request.get_optional_string "date_time.value") locations)
          (request.children.length + 1) 0 w.correlated (by norm_num)
          ⟨j, Nat.zero_le j, by omega, habs⟩
        simp only [hr]
        obtain ⟨ok2, correlated⟩ := r
        cases ok2 with
        | false => exact ⟨_, rfl⟩
        | true =>
          simp only
          cases request.get_optional_string "costing" with
          | none => exact ⟨_, rfl⟩
          | some costing =>
            simp only
            split
            · exact ⟨_, rfl⟩
            · split <;> exact ⟨_, rfl⟩

/-! ## work: dispatch -/

/-- What `work` does once the body is read and `init_request` has succeeded. -/
theorem work_of_init_ok {α π σ ρ ι : Type} (sif : Sif) (baldr : Baldr α π) (boost : Boost)
    (w w1 : thor_worker_t α π σ ρ) (request_str : String) (info : ι) (request : Ptree)
    (costing : String) (hbody : boost.read_json request_str = Except.ok request)
    (hinit : init_request sif baldr boost w request = some (Except.ok costing, w1)) :
    work sif baldr boost w request_str info =
      match request.get_optional_string "matrix_type" with
      | some m =>
        match MATRIX.lookup m with
        | some matrix_type =>
          some { outcome := Outcome.matrix matrix_type costing request info,
                 worker := w1, log := ["matrix_type::" ++ m] }
        | none =>
          some (bad_request w1 info ["matrix_type::" ++ m]
            ("Incorrect matrix_type provided:: " ++ m ++
              "  Accepted types are 'one_to_many', 'many_to_one' or 'many_to_many'."))
      | none =>
        if (get_optional_bool boost request "optimized").isSome then
          some { outcome := Outcome.optimized_path w1.correlated costing request_str,
                 worker := w1, log := [] }
        else
          some { outcome := Outcome.trip_path costing request_str
                   (get_optional_int boost request "date_time.type"),
                 worker := w1, log := [] } := by
  unfold work
  simp only [hbody, hinit]

/-- Without a `matrix_type`, the trip-optimization handler is chosen exactly
when the `optimized` field is present and translates to a boolean, whatever
that boolean is; otherwise the default trip handler is chosen. -/
theorem work_optimized_dispatch {α π σ ρ ι : Type} (sif : Sif) (baldr : Baldr α π)
    (boost : Boost) (w w1 : thor_worker_t α π σ ρ) (request_str : String) (info : ι)
    (request : Ptree) (costing : String)
    (hbody : boost.read_json request_str = Except.ok request)
    (hinit : init_request sif baldr boost w request = some (Except.ok costing, w1))
    (hmatrix : request.get_optional_string "matrix_type" = none) :
    ((∃ b, get_optional_bool boost request "optimized" = some b) →
      work sif baldr boost w request_str info =
        some { outcome := Outcome.optimized_path w1.correlated costing request_str,
               worker := w1, log := [] }) ∧
    (get_optional_bool boost request "optimized" = none →
      work sif baldr boost w request_str info =
        some { outcome := Outcome.trip_path costing request_str
                 (get_optional_int boost request "date_time.type"),
               worker := w1, log := [] }) := by
  rw [work_of_init_ok sif baldr boost w w1 request_str info request costing hbody hinit]
  simp only [hmatrix]
  constructor
  · rintro ⟨b, hb⟩
    simp [hb]
  · intro hb
    simp [hb]

/-- C4. The body of scenario A with `"optimized":false` parses, passes
`init_request` and has no `matrix_type`; its `optimized` field is present with
value false, and `work` hands it to the trip-optimization handler, not to the
default trip handler. -/
theorem work_optimized_false_takes_optimized_path :
    demoBoost.read_json bodyOptimizedFalse = Except.ok docOptimizedFalse ∧
    init_request demoSif demoBaldr demoBoost demoServer docOptimizedFalse =
      some (Except.ok "auto", demoServerA) ∧
    docOptimizedFalse.get_optional_string "matrix_type" = none ∧
    get_optional_bool demoBoost docOptimizedFalse "optimized" = some false ∧
    work demoSif demoBaldr demoBoost demoServer bodyOptimizedFalse () =
      some { outcome := Outcome.optimized_path [] "auto" bodyOptimizedFalse,
             worker := demoServerA, log := [] } :=
  ⟨rfl, rfl, rfl, rfl, rfl⟩

/-- A name outside the table `MATRIX` is not found in it. -/
theorem MATRIX_lookup_none (m : String)
    (hm : m ≠ "one_to_many" ∧ m ≠ "many_to_one" ∧ m ≠ "many_to_many") :
    MATRIX.lookup m = none := by
  obtain ⟨h1, h2, h3⟩ := hm
  have b1 : (m == "one_to_many") = false := beq_eq_false_iff_ne.mpr h1
  have b2 : (m == "many_to_one") = false := beq_eq_false_iff_ne.mpr h2
  have b3 : (m == "many_to_many") = false := beq_eq_false_iff_ne.mpr h3
  simp only [MATRIX, List.lookup, b1, b2, b3]

/-- C5. A valid `matrix_type`: once the body is read and `init_request` has
returned a costing, a `matrix_type` that is one of the three accepted names
makes `work` call the matrix handler with the enum value of that name, the
costing of `init_request`, the document and the request info, whatever the
`optimized` field holds; no other handler is called. -/
theorem work_matrix_dispatch {α π σ ρ ι : Type} (sif : Sif) (baldr : Baldr α π)
    (boost : Boost) (w w1 : thor_worker_t α π σ ρ) (request_str : String) (info : ι)
    (request : Ptree) (costing m : String)
    (hbody : boost.read_json request_str = Except.ok request)
    (hinit : init_request sif baldr boost w request = some (Except.ok costing, w1))
    (hmatrix : request.get_optional_string "matrix_type" = some m)
    (hm : m = "one_to_many" ∨ m = "many_to_one" ∨ m = "many_to_many") :
    ∃ t, work sif baldr boost w request_str info =
        some { outcome := Outcome.matrix t costing request info,
               worker := w1, log := ["matrix_type::" ++ m] } ∧
      (m = "one_to_many" → t = MATRIX_TYPE.ONE_TO_MANY) ∧
      (m = "many_to_one" → t = MATRIX_TYPE.MANY_TO_ONE) ∧
      (m = "many_to_many" → t = MATRIX_TYPE.MANY_TO_MANY) := by
  rw [work_of_init_ok sif baldr boost w w1 request_str info request costing hbody hinit]
  simp only [hmatrix]
  rcases hm with rfl | rfl | rfl
  · exact ⟨MATRIX_TYPE.ONE_TO_MANY, rfl, fun _ => rfl, by decide, by decide⟩
  · exact ⟨MATRIX_TYPE.MANY_TO_ONE, rfl, by decide, fun _ => rfl, by decide⟩
  · exact ⟨MATRIX_TYPE.MANY_TO_MANY, rfl, by decide, by decide, fun _ => rfl⟩

/-- C5, scenario C: `"matrix_type":"many_to_many"` selects `MANY_TO_MANY`. -/
theorem work_matrix_dispatch_witness :
    demoBoost.read_json bodyC = Except.ok docC ∧
    init_request demoSif demoBaldr demoBoost demoServer docC =
      some (Except.ok "auto", demoServerA) ∧
    docC.get_optional_string "matrix_type" = some "many_to_many" ∧
    ∃ t, work demoSif demoBaldr demoBoost demoServer bodyC () =
        some { outcome := Outcome.matrix t "auto" docC (),
               worker := demoServerA, log := ["matrix_type::" ++ "many_to_many"] } ∧
      ("many_to_many" = "one_to_many" → t = MATRIX_TYPE.ONE_TO_MANY) ∧
      ("many_to_many" = "many_to_one" → t = MATRIX_TYPE.MANY_TO_ONE) ∧
      ("many_to_many" = "many_to_many" → t = MATRIX_TYPE.MANY_TO_MANY) :=
  ⟨rfl, rfl, rfl,
    work_matrix_dispatch demoSif demoBaldr demoBoost demoServer demoServerA bodyC ()
      docC "auto" "many_to_many" rfl rfl rfl (Or.inr (Or.inr rfl))⟩

/-- C6. An unrecognized `matrix_type`: for a body that is read as a document
with a `matrix_type` outside the three accepted names, `work` answers with a
response of status 400 of its own making, so no handler is called; when
`init_request` succeeded the body of the response is the message naming the
rejected value. -/
theorem work_unknown_matrix_type {α π σ ρ ι : Type} (sif : Sif) (baldr : Baldr α π)
    (boost : Boost) (w : thor_worker_t α π σ ρ) (request_str : String) (info : ι)
    (request : Ptree) (m : String)
    (hbody : boost.read_json request_str = Except.ok request)
    (hmatrix : request.get_optional_string "matrix_type" = some m)
    (hm : m ≠ "one_to_many" ∧ m ≠ "many_to_one" ∧ m ≠ "many_to_many") :
    ∃ r resp, work sif baldr boost w request_str info = some r ∧
      r.outcome = Outcome.response resp ∧ resp.code = 400 ∧
      (∀ costing w1, init_request sif baldr boost w request = some (Except.ok costing, w1) →
        resp.body = "Incorrect matrix_type provided:: " ++ m ++
          "  Accepted types are 'one_to_many', 'many_to_one' or 'many_to_many'.") := by
  obtain ⟨⟨res, w1⟩, hr⟩ := init_request_returns sif baldr boost w request
  cases res with
  | error e =>
    refine ⟨bad_request w1 info [] e, _, ?_, rfl, rfl, ?_⟩
    · unfold work
      simp only [hbody, hr]
    · intro costing w2 h
      rw [hr] at h
      cases h
  | ok costing =>
    refine ⟨bad_request w1 info ["matrix_type::" ++ m]
      ("Incorrect matrix_type provided:: " ++ m ++
        "  Accepted types are 'one_to_many', 'many_to_one' or 'many_to_many'."),
      _, ?_, rfl, rfl, fun _ _ _ => rfl⟩
    rw [work_of_init_ok sif baldr boost w w1 request_str info request costing hbody hr]
    simp only [hmatrix, MATRIX_lookup_none m hm]

/-- C6, scenario D: `"matrix_type":"bogus"` is answered with status 400. -/
theorem work_unknown_matrix_type_witness :
    demoBoost.read_json bodyD = Except.ok docD ∧
    docD.get_optional_string "matrix_type" = some "bogus" ∧
    ("bogus" ≠ "one_to_many" ∧ "bogus" ≠ "many_to_one" ∧ "bogus" ≠ "many_to_many") ∧
    ∃ (r : WorkResult Ptree Ptree Nat Unit Unit) (resp : http_response_t Unit),
      work demoSif demoBaldr demoBoost demoServer bodyD () = some r ∧
      r.outcome = Outcome.response resp ∧ resp.code = 400 ∧
      (∀ costing w1,
        init_request demoSif demoBaldr demoBoost demoServer docD =
          some (Except.ok costing, w1) →
        resp.body = "Incorrect matrix_type provided:: " ++ "bogus" ++
          "  Accepted types are 'one_to_many', 'many_to_one' or 'many_to_many'.") :=
  ⟨rfl, rfl, by decide,
    work_unknown_matrix_type demoSif demoBaldr demoBoost demoServer bodyD () docD "bogus"
      rfl rfl (by decide)⟩

/-- C7. A body that cannot be read: `work` answers with status 500 and the one
fixed text, the same for any two unreadable bodies whatever the reader's error,
which only reaches the log; `init_request` and the handlers are not run and the
worker is left exactly as it was. -/
theorem work_malformed_body {α π σ ρ ι : Type} (sif : Sif) (baldr : Baldr α π)
    (boost : Boost) (w : thor_worker_t α π σ ρ) (info : ι) (body1 body2 : String)
    (e1 e2 : Option String) (h1 : boost.read_json body1 = Except.error e1)
    (h2 : boost.read_json body2 = Except.error e2) :
    ∃ r1 r2, work sif baldr boost w body1 info = some r1 ∧
      work sif baldr boost w body2 info = some r2 ∧
      r1.outcome = Outcome.response
        { code := 500, message := "Internal Server Error",
          body := "Failed to parse intermediate request format",
          headers := [CORS], info := info } ∧
      r2.outcome = r1.outcome ∧
      r1.worker = w ∧ r2.worker = w := by
  unfold work
  cases e1 <;> cases e2 <;> simp only [h1, h2] <;> exact ⟨_, _, rfl, rfl, rfl, rfl, rfl, rfl⟩

/-- C7, at two unreadable bodies whose reader errors differ. -/
theorem work_malformed_body_witness :
    demoBoost.read_json "not json" =
      Except.error (some "<unspecified file>(1): cannot read: not json") ∧
    demoBoost.read_json "[1,2" =
      Except.error (some "<unspecified file>(1): cannot read: [1,2") ∧
    ∃ (r1 r2 : WorkResult Ptree Ptree Nat Unit Unit),
      work demoSif demoBaldr demoBoost demoServerA "not json" () = some r1 ∧
      work demoSif demoBaldr demoBoost demoServerA "[1,2" () = some r2 ∧
      r1.outcome = Outcome.response
        { code := 500, message := "Internal Server Error",
          body := "Failed to parse intermediate request format",
          headers := [CORS], info := () } ∧
      r2.outcome = r1.outcome ∧
      r1.worker = demoServerA ∧ r2.worker = demoServerA :=
  ⟨rfl, rfl,
    work_malformed_body demoSif demoBaldr demoBoost demoServerA () "not json" "[1,2"
      (some "<unspecified file>(1): cannot read: not json")
      (some "<unspecified file>(1): cannot read: [1,2") rfl rfl⟩

/-! ## init_request: validation -/

/-- The location loop pushes at most one location per entry. -/
theorem push_locations_length_le {α π : Type} (baldr : Baldr α π)
    (cs : List (String × Ptree)) (locations : List (Location α)) :
    (push_locations baldr cs locations).2.length ≤ locations.length + cs.length := by
  induction cs generalizing locations with
  | nil => simp [push_locations]
  | cons c cs ih =>
    obtain ⟨k, t⟩ := c
    unfold push_locations
    cases baldr.Location_FromPtree t with
    | none => simp
    | some l =>
      have := ih (locations ++ [l])
      simp only [List.length_append, List.length_cons, List.length_nil] at this ⊢
      omega

/-- The location loop fails when some entry cannot be parsed. -/
theorem push_locations_invalid {α π : Type} (baldr : Baldr α π)
    (cs : List (String × Ptree)) (locations : List (Location α))
    (h : ∃ entry ∈ cs, baldr.Location_FromPtree entry.2 = none) :
    (push_locations baldr cs locations).1 = false := by
  induction cs generalizing locations with
  | nil =>
    obtain ⟨entry, hmem, _⟩ := h
    cases hmem
  | cons c cs ih =>
    obtain ⟨k, t⟩ := c
    unfold push_locations
    cases hp : baldr.Location_FromPtree t with
    | none => rfl
    | some l =>
      apply ih
      obtain ⟨entry, hmem, hnone⟩ := h
      rcases List.mem_cons.mp hmem with rfl | hmem
      · rw [hp] at hnone
        cases hnone
      · exact ⟨entry, hmem, hnone⟩

/-- The location loop succeeds on parseable entries and pushes one location per
entry. -/
theorem push_locations_valid {α π : Type} (baldr : Baldr α π)
    (cs : List (String × Ptree)) (locations : List (Location α))
    (h : ∀ entry ∈ cs, baldr.Location_FromPtree entry.2 ≠ none) :
    (push_locations baldr cs locations).1 = true ∧
      (push_locations baldr cs locations).2.length = locations.length + cs.length := by
  induction cs generalizing locations with
  | nil => simp [push_locations]
  | cons c cs ih =>
    obtain ⟨k, t⟩ := c
    unfold push_locations
    cases hp : baldr.Location_FromPtree t with
    | none => exact absurd hp (h (k, t) (List.mem_cons_self _ _))
    | some l =>
      have := ih (locations ++ [l]) (fun entry hmem => h entry (List.mem_cons_of_mem _ hmem))
      simp only [List.length_append, List.length_cons, List.length_nil] at this ⊢
      exact ⟨this.1, by omega⟩

/-- From a worker without locations, each of the listed defects of a request
makes `init_request` throw. -/
theorem init_request_throws {α π σ ρ : Type} (sif : Sif) (baldr : Baldr α π) (boost : Boost)
    (w : thor_worker_t α π σ ρ) (request : Ptree) (hclean : w.locations = [])
    (h : request.get_child_optional "locations" = none ∨
      (∃ ls, request.get_child_optional "locations" = some ls ∧
        (ls.children.length < 2 ∨
          ∃ entry ∈ ls.children, baldr.Location_FromPtree entry.2 = none)) ∨
      request.get_optional_string "costing" = none) :
    ∃ e w1, init_request sif baldr boost w request = some (Except.error e, w1) := by
  unfold init_request
  cases hl : request.get_child_optional "locations" with
  | none => exact ⟨_, _, rfl⟩
  | some request_locations =>
    simp only
    rcases hp : push_locations baldr request_locations.children w.locations with ⟨ok, locations⟩
    cases ok with
    | false => exact ⟨_, _, rfl⟩
    | true =>
      simp only
      by_cases hlen : locations.length < 2
      · rw [if_pos hlen]
        exact ⟨_, _, rfl⟩
      · rw [if_neg hlen]
        have hc : request.get_optional_string "costing" = none := by
          rcases h with h | ⟨ls, hls, h⟩ | h
          · rw [hl] at h
            cases h
          · rw [hl] at hls
            cases hls
            exfalso
            rcases h with h | h
            · have := push_locations_length_le baldr request_locations.children w.locations
              rw [hp, hclean] at this
              simp only [List.length_nil] at this
              omega
            · have := push_locations_invalid baldr request_locations.children w.locations h
              rw [hp] at this
              cases this
          · exact h
        obtain ⟨j, hj, habs⟩ := exists_absent_correlated request
        obtain ⟨r, hr⟩ := correlate_returns baldr request
          (apply_date_time (get_optional_int boost request "date_time.type")
            (request.get_optional_string "date_time.value") locations)
          (request.children.length + 1) 0 w.correlated (by norm_num)
          ⟨j, Nat.zero_le j, by omega, habs⟩
        simp only [hr]
        obtain ⟨ok2, correlated⟩ := r
        cases ok2 with
        | false => exact ⟨_, _, rfl⟩
        | true =>
          simp only [hc]
          exact ⟨_, _, rfl⟩

/-- From a worker without locations, a request with exactly one location
entry, which parses, is rejected for its number of locations. -/
theorem init_request_single_location {α π σ ρ : Type} (sif : Sif) (baldr : Baldr α π)
    (boost : Boost) (w : thor_worker_t α π σ ρ) (request ls : Ptree)
    (entry : String × Ptree) (l : Location α) (hclean : w.locations = [])
    (hls : request.get_child_optional "locations" = some ls)
    (hone : ls.children = [entry]) (hl : baldr.Location_FromPtree entry.2 = some l) :
    init_request sif baldr boost w request =
      some (Except.error "Insufficient number of locations provided",
        { w with locations := [l] }) := by
  obtain ⟨k, t⟩ := entry
  simp only at hl
  unfold init_request
  simp [hls, hone, hclean, push_locations, hl]

/-- C8. Request validation: from a worker with no locations, a document read
from the body that lacks `locations`, or has fewer than two location entries,
or has an entry that does not parse, or lacks `costing`, makes `init_request`
throw, and `work` answers with status 400 and the thrown message as body; for a
single location that parses the message is the one about the insufficient
number of locations. -/
theorem work_validation_failure {α π σ ρ ι : Type} (sif : Sif) (baldr : Baldr α π)
    (boost : Boost) (w : thor_worker_t α π σ ρ) (request_str : String) (info : ι)
    (request : Ptree) (hclean : w.locations = [])
    (hbody : boost.read_json request_str = Except.ok request)
    (h : request.get_child_optional "locations" = none ∨
      (∃ ls, request.get_child_optional "locations" = some ls ∧
        (ls.children.length < 2 ∨
          ∃ entry ∈ ls.children, baldr.Location_FromPtree entry.2 = none)) ∨
      request.get_optional_string "costing" = none) :
    ∃ e w1, init_request sif baldr boost w request = some (Except.error e, w1) ∧
      work sif baldr boost w request_str info =
        some { outcome := Outcome.response
                 { code := 400, message := "Bad Request", body := e, headers := [CORS],
                   info := info },
               worker := w1, log := ["400::" ++ e] } ∧
      (∀ ls entry l, request.get_child_optional "locations" = some ls →
        ls.children = [entry] → baldr.Location_FromPtree entry.2 = some l →
        e = "Insufficient number of locations provided") := by
  obtain ⟨e, w1, hinit⟩ := init_request_throws sif baldr boost w request hclean h
  refine ⟨e, w1, hinit, ?_, ?_⟩
  · unfold work
    simp only [hbody, hinit, bad_request, List.nil_append]
  · intro ls entry l hls hone hl
    have := init_request_single_location sif baldr boost w request ls entry l hclean hls hone hl
    rw [hinit] at this
    injection this with this
    injection this with this _
    injection this with this

/-- C8, scenario B: a body with exactly one location. -/
theorem work_validation_failure_witness :
    demoServer.locations = [] ∧
    demoBoost.read_json bodyB = Except.ok docB ∧
    (docB.get_child_optional "locations" = none ∨
      (∃ ls, docB.get_child_optional "locations" = some ls ∧
        (ls.children.length < 2 ∨
          ∃ entry ∈ ls.children, demoBaldr.Location_FromPtree entry.2 = none)) ∨
      docB.get_optional_string "costing" = none) ∧
    ∃ e w1, init_request demoSif demoBaldr demoBoost demoServer docB =
        some (Except.error e, w1) ∧
      work demoSif demoBaldr demoBoost demoServer bodyB () =
        some { outcome := Outcome.response
                 { code := 400, message := "Bad Request", body := e, headers := [CORS],
                   info := () },
               worker := w1, log := ["400::" ++ e] } ∧
      (∀ ls entry l, docB.get_child_optional "locations" = some ls →
        ls.children = [entry] → demoBaldr.Location_FromPtree entry.2 = some l →
        e = "Insufficient number of locations provided") :=
  ⟨rfl, rfl, Or.inr (Or.inl ⟨node [("", latlon "1" "1")], rfl, Or.inl (by decide)⟩),
    work_validation_failure demoSif demoBaldr demoBoost demoServer bodyB () docB rfl rfl
      (Or.inr (Or.inl ⟨node [("", latlon "1" "1")], rfl, Or.inl (by decide)⟩))⟩

/-! ## init_request: success -/

/-- The `correlated_<i>` loop succeeds when every entry it can meet parses. -/
theorem correlate_succeeds {α π : Type} (baldr : Baldr α π) (request : Ptree)
    (locations : List (Location α)) (fuel i : Nat) (correlated : List π)
    (hi : i < 2 ^ 64)
    (h : ∃ j, i ≤ j ∧ j < i + fuel ∧
      request.get_child_optional ("correlated_" ++ to_string j) = none)
    (hparse : ∀ k path_location,
      request.get_child_optional ("correlated_" ++ to_string k) = some path_location →
      baldr.PathLocation_FromPtree locations path_location ≠ none) :
    ∃ cs, correlate baldr request locations fuel i correlated = some (true, cs) := by
  induction fuel generalizing i correlated with
  | zero =>
    obtain ⟨j, h1, h2, _⟩ := h
    omega
  | succ fuel ih =>
    obtain ⟨j, h1, h2, h3⟩ := h
    unfold correlate
    split
    · exact ⟨_, rfl⟩
    · rename_i path_location hp
      split
      · rename_i hq
        exact absurd hq (hparse i path_location hp)
      · rename_i c hq
        by_cases hw : (i + 1) % 2 ^ 64 = 0
        · rw [if_pos hw]
          exact ⟨_, rfl⟩
        · rw [if_neg hw]
          have hij : i ≠ j := by
            intro e
            rw [e, h3] at hp
            cases hp
          have hlt : i + 1 < 2 ^ 64 := by
            rcases Nat.lt_or_ge (i + 1) (2 ^ 64) with h' | h'
            · exact h'
            · exfalso
              have : i + 1 = 2 ^ 64 := by omega
              rw [this] at hw
              simp at hw
          rw [Nat.mod_eq_of_lt hlt]
          exact ih (i + 1) _ hlt ⟨j, by omega, by omega, h3⟩

/-- A registered costing method is not the composite `multimodal`. -/
theorem registered_ne_multimodal (costing : String) (h : costing ∈ registered_costings) :
    costing ≠ "multimodal" := by
  intro e
  rw [e] at h
  revert h
  decide

/-- C9, as the code has it. When the server configuration has a
`costing_options.<costing>` subtree, the request has at least two location
entries which all parse, every `correlated_<i>` entry of the request parses, and
`costing` names a method registered with the factory, `init_request` succeeds
and returns that name; the active mode is the travel mode of the cost model
created for it, and the slot of that mode holds this fresh model. -/
theorem init_request_succeeds {α π σ ρ : Type} (sif : Sif) (baldr : Baldr α π)
    (boost : Boost) (w : thor_worker_t α π σ ρ) (request ls : Ptree) (costing : String)
    (hfactory : w.factory = registered_costings)
    (hls : request.get_child_optional "locations" = some ls)
    (hvalid : ∀ entry ∈ ls.children, baldr.Location_FromPtree entry.2 ≠ none)
    (htwo : 2 ≤ ls.children.length)
    (hcorr : ∀ k path_location,
      request.get_child_optional ("correlated_" ++ to_string k) = some path_location →
      baldr.PathLocation_FromPtree
        (apply_date_time (get_optional_int boost request "date_time.type")
          (request.get_optional_string "date_time.value")
          (push_locations baldr ls.children w.locations).2) path_location ≠ none)
    (hcosting : request.get_optional_string "costing" = some costing)
    (hreg : costing ∈ registered_costings)
    (hconfig : w.config.get_child_optional ("costing_options." ++ costing) ≠ none) :
    ∃ w1 cost, init_request sif baldr boost w request = some (Except.ok costing, w1) ∧
      get_costing sif w request costing = Except.ok cost ∧
      cost.costing = costing ∧ cost.history = [] ∧
      w1.mode = sif.travelmode cost ∧
      w1.mode_costing.get (sif.travelmode cost) = some cost := by
  obtain ⟨config_costing, hcc⟩ := Option.ne_none_iff_exists'.mp hconfig
  have hcreate : ∀ options, Create sif w.factory costing options =
      Except.ok { costing := costing, options := options, history := [] } := by
    intro options
    unfold Create
    rw [hfactory, if_pos hreg]
  obtain ⟨cost, hcost, hname, hhist⟩ : ∃ cost, get_costing sif w request costing =
      Except.ok cost ∧ cost.costing = costing ∧ cost.history = [] := by
    unfold get_costing
    simp only [hcc]
    cases request.get_child_optional ("costing_options." ++ costing) with
    | none => exact ⟨_, hcreate _, rfl, rfl⟩
    | some request_costing => exact ⟨_, hcreate _, rfl, rfl⟩
  have hpush := push_locations_valid baldr ls.children w.locations hvalid
  obtain ⟨j, hj, habs⟩ := exists_absent_correlated request
  obtain ⟨cs, hcs⟩ := correlate_succeeds baldr request
    (apply_date_time (get_optional_int boost request "date_time.type")
      (request.get_optional_string "date_time.value")
      (push_locations baldr ls.children w.locations).2)
    (request.children.length + 1) 0 w.correlated (by norm_num)
    ⟨j, Nat.zero_le j, by omega, habs⟩ hcorr
  have hlen : ¬ (push_locations baldr ls.children w.locations).2.length < 2 := by
    rw [hpush.2]
    omega
  have hget : ∀ w2 : thor_worker_t α π σ ρ, w2.config = w.config → w2.factory = w.factory →
      get_costing sif w2 request costing = Except.ok cost := by
    intro w2 h1 h2
    rw [← hcost]
    unfold get_costing
    rw [h1, h2]
  refine ⟨{ w with
      locations := apply_date_time (get_optional_int boost request "date_time.type")
        (request.get_optional_string "date_time.value")
        (push_locations baldr ls.children w.locations).2,
      correlated := cs,
      mode := sif.travelmode cost,
      mode_costing := w.mode_costing.set (sif.travelmode cost) (some cost) },
    cost, ?_, hcost, hname, hhist, rfl, ModeCosting.get_set _ _ _⟩
  unfold init_request
  simp only [hls]
  rcases hp : push_locations baldr ls.children w.locations with ⟨ok, locations⟩
  rw [hp] at hpush hlen hcs
  simp only at hpush hlen hcs
  obtain ⟨hok, _⟩ := hpush
  subst hok
  simp only [if_neg hlen, hcs, hcosting, if_neg (registered_ne_multimodal costing hreg)]
  rw [hget] <;> rfl

/-- C9, scenario A: locations (1,1) and (2,2) with costing `auto` on a server
configured for `auto` give method `auto` and a populated drive slot. -/
theorem init_request_succeeds_witness :
    demoServer.factory = registered_costings ∧
    docA.get_child_optional "locations" =
      some (node [("", latlon "1" "1"), ("", latlon "2" "2")]) ∧
    docA.get_optional_string "costing" = some "auto" ∧
    "auto" ∈ registered_costings ∧
    demoSif.travelmode (demoCost "auto") = TravelMode.kDrive ∧
    init_request demoSif demoBaldr demoBoost demoServer docA =
      some (Except.ok "auto", demoServerA) ∧
    demoServerA.mode_costing.drive.isSome = true ∧
    ∃ w1 cost, init_request demoSif demoBaldr demoBoost demoServer docA =
        some (Except.ok "auto", w1) ∧
      get_costing demoSif demoServer docA "auto" = Except.ok cost ∧
      cost.costing = "auto" ∧ cost.history = [] ∧
      w1.mode = demoSif.travelmode cost ∧
      w1.mode_costing.get (demoSif.travelmode cost) = some cost :=
  ⟨rfl, rfl, rfl, by decide, by decide, rfl, rfl,
    init_request_succeeds demoSif demoBaldr demoBoost demoServer docA
      (node [("", latlon "1" "1"), ("", latlon "2" "2")]) "auto" rfl rfl
      (by
        intro entry hmem
        simp only [node, Ptree.children, List.mem_cons, List.mem_nil_iff, or_false] at hmem
        rcases hmem with rfl | rfl <;> exact fun h => Option.noConfusion h)
      (by decide)
      (by
        intro k path_location hk
        rw [get_correlated_eq_find] at hk
        have := Ptree.mem_keys_of_find _ _ _ hk
        simp only [docA, node, Ptree.children, List.map_cons, List.map_nil, List.mem_cons,
          List.mem_nil_iff, or_false] at this
        exfalso
        rcases this with h | h
        · have hl := congrArg String.length h
          rw [String.length_append] at hl
          have h11 : "correlated_".length = 11 := by decide
          have h9 : "locations".length = 9 := by decide
          omega
        · have hl := congrArg String.length h
          rw [String.length_append] at hl
          have h11 : "correlated_".length = 11 := by decide
          have h7 : "costing".length = 7 := by decide
          omega)
      rfl (by decide) (fun h => Option.noConfusion h)⟩

/-- C9, as stated, fails: scenario A has two parseable locations and the
registered costing `auto`, yet on a server whose configuration has no
`costing_options.auto` the parser throws and no slot is populated. -/
theorem init_request_fails_without_config :
    docA.get_child_optional "locations" =
      some (node [("", latlon "1" "1"), ("", latlon "2" "2")]) ∧
    (demoBaldr.Location_FromPtree (latlon "1" "1")).isSome = true ∧
    (demoBaldr.Location_FromPtree (latlon "2" "2")).isSome = true ∧
    docA.get_optional_string "costing" = some "auto" ∧
    "auto" ∈ registered_costings ∧
    bareServer.factory = registered_costings ∧
    init_request demoSif demoBaldr demoBoost bareServer docA =
      some (Except.error "No costing method found for 'auto'",
        { bareServer with locations := demoLocations }) ∧
    ¬ ∃ w1, init_request demoSif demoBaldr demoBoost bareServer docA =
      some (Except.ok "auto", w1) := by
  refine ⟨rfl, rfl, rfl, rfl, by decide, rfl, rfl, ?_⟩
  rintro ⟨w1, h⟩
  have h2 : init_request demoSif demoBaldr demoBoost bareServer docA =
      some (Except.error "No costing method found for 'auto'",
        { bareServer with locations := demoLocations }) := rfl
  rw [h2] at h
  injection h with h
  injection h with h _
  cases h

/-! ## get_costing: the merge of request options into the configured ones -/

/-- C10. A request option whose key holds the path separator is not merged as
a key. The override `{"country_crossing.cost":1}` shares no key with the base
options of `auto`; the merge neither inserts the key `country_crossing.cost`
nor keeps the base value of the key `country_crossing`, which only the base
has: `put_child` takes the key for a path and overwrites `cost` inside the base
subtree. The tree handed to the factory is the one so changed. -/
theorem get_costing_dotted_key_breaks_precedence :
    demoConfig.get_child_optional "costing_options.auto" = some autoBase ∧
    docDotted.get_child_optional "costing_options.auto" = some dottedOverride ∧
    Ptree.find "country_crossing.cost" autoBase.children = none ∧
    Ptree.find "country_crossing.cost" dottedOverride.children = some (leaf "1") ∧
    Ptree.find "country_crossing" dottedOverride.children = none ∧
    Ptree.find "country_crossing" autoBase.children =
      some (node [("cost", leaf "600"), ("penalty", leaf "0")]) ∧
    merge_options autoBase dottedOverride =
      node [("maneuver_penalty", leaf "5"),
        ("country_crossing", node [("cost", leaf "1"), ("penalty", leaf "0")])] ∧
    Ptree.find "country_crossing.cost" (merge_options autoBase dottedOverride).children = none ∧
    Ptree.find "country_crossing" (merge_options autoBase dottedOverride).children ≠
      Ptree.find "country_crossing" autoBase.children ∧
    get_costing demoSif demoServer docDotted "auto" =
      Except.ok { costing := "auto",
                  options := node [("maneuver_penalty", leaf "5"),
                    ("country_crossing", node [("cost", leaf "1"), ("penalty", leaf "0")])],
                  history := [] } := by
  refine ⟨rfl, rfl, rfl, rfl, rfl, rfl, rfl, rfl, ?_, rfl⟩
  intro h
  have h1 : Ptree.find "country_crossing" (merge_options autoBase dottedOverride).children =
      some (node [("cost", leaf "1"), ("penalty", leaf "0")]) := rfl
  have h2 : Ptree.find "country_crossing" autoBase.children =
      some (node [("cost", leaf "600"), ("penalty", leaf "0")]) := rfl
  rw [h1, h2] at h
  have h3 := congrArg (fun o : Option Ptree =>
    (o.bind (fun t => Ptree.find "cost" t.children)).map Ptree.data) h
  revert h3
  decide

/-- C11. The merge is idempotent under an empty override: when the
configuration has an entry for the method, a request whose
`costing_options.<method>` subtree is present without children and a request
without that subtree make `get_costing` hand the factory the same options tree,
the base subtree of the configuration verbatim, and so give the same result. -/
theorem get_costing_empty_override {α π σ ρ : Type} (sif : Sif) (w : thor_worker_t α π σ ρ)
    (with_empty without : Ptree) (costing : String) (base override : Ptree)
    (hconfig : w.config.get_child_optional ("costing_options." ++ costing) = some base)
    (hempty : with_empty.get_child_optional ("costing_options." ++ costing) = some override)
    (hchildren : override.children = [])
    (hnone : without.get_child_optional ("costing_options." ++ costing) = none) :
    merge_options base override = base ∧
    get_costing sif w with_empty costing = Create sif w.factory costing base ∧
    get_costing sif w without costing = Create sif w.factory costing base ∧
    get_costing sif w with_empty costing = get_costing sif w without costing := by
  have hmerge : merge_options base override = base := by
    unfold merge_options
    rw [hchildren]
    rfl
  have h1 : get_costing sif w with_empty costing = Create sif w.factory costing base := by
    unfold get_costing
    simp only [hconfig, hempty, hmerge]
  have h2 : get_costing sif w without costing = Create sif w.factory costing base := by
    unfold get_costing
    simp only [hconfig, hnone]
  exact ⟨hmerge, h1, h2, h1.trans h2.symm⟩

/-- C11, for `auto` on the example server: scenario A with an empty override
and scenario A itself resolve to the same cost model. -/
theorem get_costing_empty_override_witness :
    demoServer.config.get_child_optional ("costing_options." ++ "auto") = some autoBase ∧
    docEmptyOverride.get_child_optional ("costing_options." ++ "auto") = some (node []) ∧
    (node []).children = [] ∧
    docA.get_child_optional ("costing_options." ++ "auto") = none ∧
    merge_options autoBase (node []) = autoBase ∧
    get_costing demoSif demoServer docEmptyOverride "auto" =
      Create demoSif demoServer.factory "auto" autoBase ∧
    get_costing demoSif demoServer docA "auto" =
      Create demoSif demoServer.factory "auto" autoBase ∧
    get_costing demoSif demoServer docEmptyOverride "auto" =
      get_costing demoSif demoServer docA "auto" :=
  ⟨rfl, rfl, rfl, rfl,
    get_costing_empty_override demoSif demoServer docEmptyOverride docA "auto" autoBase
      (node []) rfl rfl rfl rfl⟩

/-- C12. A method without server configuration: when the configuration has no
`costing_options.<method>` subtree, `get_costing` throws the message naming the
method, for every request (with or without an override subtree of its own) and
whatever the factory holds, so the factory is not consulted; when the subtree
exists, the result is what the factory returns for the method. -/
theorem get_costing_missing_config {α π σ ρ : Type} (sif : Sif) (w : thor_worker_t α π σ ρ)
    (request : Ptree) (costing : String) :
    (w.config.get_child_optional ("costing_options." ++ costing) = none →
      get_costing sif w request costing =
        Except.error ("No costing method found for '" ++ costing ++ "'") ∧
      ∀ (sif2 : Sif) (factory2 : List String),
        get_costing sif2 { w with factory := factory2 } request costing =
          Except.error ("No costing method found for '" ++ costing ++ "'")) ∧
    (∀ base, w.config.get_child_optional ("costing_options." ++ costing) = some base →
      ∃ options, get_costing sif w request costing = Create sif w.factory costing options) := by
  constructor
  · intro hnone
    constructor
    · unfold get_costing
      simp only [hnone]
    · intro sif2 factory2
      unfold get_costing
      simp only [hnone]
  · intro base hbase
    unfold get_costing
    simp only [hbase]
    cases request.get_child_optional ("costing_options." ++ costing) with
    | none => exact ⟨_, rfl⟩
    | some request_costing => exact ⟨_, rfl⟩

/-- C12, on a server without costing options: the override subtree of the
request does not help, `get_costing` throws the message naming `auto`. -/
theorem get_costing_missing_config_witness :
    bareServer.config.get_child_optional ("costing_options." ++ "auto") = none ∧
    docDotted.get_child_optional ("costing_options." ++ "auto") = some dottedOverride ∧
    get_costing demoSif bareServer docDotted "auto" =
      Except.error ("No costing method found for '" ++ "auto" ++ "'") :=
  ⟨rfl, rfl, ((get_costing_missing_config demoSif bareServer docDotted "auto").1 rfl).1⟩

/-! ## UpdateOrigin -/

/-- The loop of `UpdateOrigin` keeps the first edge with the id of the through
edge, or leaves the origin as it is. -/
theorem UpdateOrigin_loop_eq {α ε : Type} (through_edge : GraphId) (edges : List (PathEdge ε))
    (origin : PathLocation α ε) :
    UpdateOrigin_loop through_edge edges origin =
      match edges.find? (fun e => decide (e.id = through_edge)) with
      | some e => { origin with edges := [e] }
      | none => origin := by
  induction edges with
  | nil => rfl
  | cons e rest ih =>
    unfold UpdateOrigin_loop
    by_cases h : e.id = through_edge
    · simp [h, PathLocation.ClearEdges, PathLocation.CorrelateEdge]
    · simp [h, ih]

/-- C13. `UpdateOrigin` refines the reference definition: for a through edge
the graph knows, the origin afterwards is the one the specification describes,
unchanged when the prior point is a node or the edge is flagged not-through,
else narrowed to the first candidate with the id of the through edge when
there is one; the rest of the location is untouched. -/
theorem UpdateOrigin_refines {α π σ ρ ε : Type} (graph : GraphReader ρ)
    (w : thor_worker_t α π σ ρ) (origin : PathLocation α ε) (prior_is_node : Bool)
    (through_edge : GraphId) (de : DirectedEdge) (reader : ρ)
    (hedge : graph.directededge w.reader through_edge = (some de, reader)) :
    ∃ w1, UpdateOrigin graph w origin prior_is_node through_edge =
        some (adjustOrigin_reference origin prior_is_node de.not_thru through_edge, w1) ∧
      (prior_is_node = true ∨ de.not_thru = true →
        adjustOrigin_reference origin prior_is_node de.not_thru through_edge = origin) ∧
      (prior_is_node = false → de.not_thru = false →
        (∀ e, origin.edges.find? (fun e => decide (e.id = through_edge)) = some e →
          (adjustOrigin_reference origin prior_is_node de.not_thru through_edge).edges = [e]) ∧
        ((∀ e ∈ origin.edges, e.id ≠ through_edge) →
          adjustOrigin_reference origin prior_is_node de.not_thru through_edge = origin)) := by
  refine ⟨if prior_is_node then w else { w with reader := reader }, ?_, ?_, ?_⟩
  · unfold UpdateOrigin adjustOrigin_reference
    cases prior_is_node with
    | true => simp
    | false =>
      simp only [hedge]
      cases hnt : de.not_thru with
      | true => simp
      | false => simp [UpdateOrigin_loop_eq]
  · intro h
    unfold adjustOrigin_reference
    rw [if_pos h]
  · intro hp hn
    unfold adjustOrigin_reference
    simp only [hp, hn, Bool.false_eq_true, or_self, if_false]
    constructor
    · intro e he
      simp only [he]
    · intro hall
      have : origin.edges.find? (fun e => decide (e.id = through_edge)) = none := by
        rw [List.find?_eq_none]
        intro e he
        simpa using hall e he
      simp only [this]

/-- C13, at an origin with the candidates 3, 4, 4 and the through edge 4 after
a mid-edge point: the first candidate with id 4 is all that stays. -/
theorem UpdateOrigin_refines_witness :
    demoGraph.directededge (demoGraphWorker 0).reader { value := 4 } =
      (some { not_thru := false }, 1) ∧
    UpdateOrigin demoGraph (demoGraphWorker 0) demoOrigin false { value := 4 } =
      some ({ demoOrigin with edges := [{ id := { value := 4 }, payload := "second" }] },
        demoGraphWorker 1) ∧
    ∃ w1, UpdateOrigin demoGraph (demoGraphWorker 0) demoOrigin false { value := 4 } =
        some (adjustOrigin_reference demoOrigin false
          ({ not_thru := false } : DirectedEdge).not_thru { value := 4 }, w1) ∧
      (false = true ∨ ({ not_thru := false } : DirectedEdge).not_thru = true →
        adjustOrigin_reference demoOrigin false
          ({ not_thru := false } : DirectedEdge).not_thru { value := 4 } = demoOrigin) ∧
      (false = false → ({ not_thru := false } : DirectedEdge).not_thru = false →
        (∀ e, demoOrigin.edges.find? (fun e => decide (e.id = { value := 4 })) = some e →
          (adjustOrigin_reference demoOrigin false
            ({ not_thru := false } : DirectedEdge).not_thru { value := 4 }).edges = [e]) ∧
        ((∀ e ∈ demoOrigin.edges, e.id ≠ { value := 4 }) →
          adjustOrigin_reference demoOrigin false
            ({ not_thru := false } : DirectedEdge).not_thru { value := 4 } = demoOrigin)) :=
  ⟨rfl, rfl,
    UpdateOrigin_refines demoGraph (demoGraphWorker 0) demoOrigin false { value := 4 }
      { not_thru := false } 1 rfl⟩

/-! ## init_request: the date-time tag -/

/-- Tagging the front changes the first location only. -/
theorem set_front_date_time_spec {α : Type} (v : Option String) (locations : List (Location α)) :
    (set_front_date_time v locations).length = locations.length ∧
    (set_front_date_time v locations)[0]? =
      locations[0]?.map (fun l => { l with date_time_ := v }) ∧
    ∀ i, i ≠ 0 → (set_front_date_time v locations)[i]? = locations[i]? := by
  cases locations with
  | nil => simp [set_front_date_time]
  | cons l rest =>
    refine ⟨by simp [set_front_date_time], by simp [set_front_date_time], ?_⟩
    intro i hi
    cases i with
    | zero => exact absurd rfl hi
    | succ i => simp [set_front_date_time]

/-- Tagging the back changes the last location only. -/
theorem set_back_date_time_spec {α : Type} (v : Option String) (locations : List (Location α)) :
    (set_back_date_time v locations).length = locations.length ∧
    (set_back_date_time v locations)[locations.length - 1]? =
      locations[locations.length - 1]?.map (fun l => { l with date_time_ := v }) ∧
    ∀ i, i ≠ locations.length - 1 → (set_back_date_time v locations)[i]? = locations[i]? := by
  induction locations with
  | nil => simp [set_back_date_time]
  | cons l rest ih =>
    cases rest with
    | nil =>
      refine ⟨by simp [set_back_date_time], by simp [set_back_date_time], ?_⟩
      intro i hi
      cases i with
      | zero => exact absurd rfl hi
      | succ i => simp [set_back_date_time]
    | cons m rest =>
      obtain ⟨h1, h2, h3⟩ := ih
      refine ⟨?_, ?_, ?_⟩
      · simp only [set_back_date_time, List.length_cons] at h1 ⊢
        omega
      · simp only [List.length_cons, Nat.add_sub_cancel] at h2 ⊢
        simp only [set_back_date_time, List.getElem?_cons_succ]
        exact h2
      · intro i hi
        cases i with
        | zero => simp [set_back_date_time]
        | succ i =>
          simp only [set_back_date_time, List.getElem?_cons_succ]
          apply h3
          simp only [List.length_cons, Nat.add_sub_cancel] at hi ⊢
          omega

/-- The multimodal costing step leaves the lists, the configuration and the
factory of the worker alone. -/
theorem init_multimodal_frame {α π σ ρ : Type} (sif : Sif) (w : thor_worker_t α π σ ρ)
    (request : Ptree) :
    (init_multimodal sif w request).2.locations = w.locations ∧
    (init_multimodal sif w request).2.correlated = w.correlated ∧
    (init_multimodal sif w request).2.config = w.config ∧
    (init_multimodal sif w request).2.factory = w.factory := by
  unfold init_multimodal
  split
  · exact ⟨rfl, rfl, rfl, rfl⟩
  · dsimp only
    split
    · exact ⟨rfl, rfl, rfl, rfl⟩
    · split
      · exact ⟨rfl, rfl, rfl, rfl⟩
      · split <;> exact ⟨rfl, rfl, rfl, rfl⟩

/-- Once at least two locations are parsed, `init_request` returns with the
locations as the date-time step left them, whatever happens afterwards. -/
theorem init_request_locations {α π σ ρ : Type} (sif : Sif) (baldr : Baldr α π)
    (boost : Boost) (w : thor_worker_t α π σ ρ) (request ls : Ptree)
    (locations : List (Location α))
    (hls : request.get_child_optional "locations" = some ls)
    (hpush : push_locations baldr ls.children w.locations = (true, locations))
    (htwo : 2 ≤ locations.length) :
    ∃ res w1, init_request sif baldr boost w request = some (res, w1) ∧
      w1.locations = apply_date_time (get_optional_int boost request "date_time.type")
        (request.get_optional_string "date_time.value") locations := by
  unfold init_request
  simp only [hls, hpush, if_neg (Nat.not_lt.mpr htwo)]
  obtain ⟨j, hj, habs⟩ := exists_absent_correlated request
  obtain ⟨r, hr⟩ := correlate_returns baldr request
    (apply_date_time (get_optional_int boost request "date_time.type")
      (request.get_optional_string "date_time.value") locations)
    (request.children.length + 1) 0 w.correlated (by norm_num)
    ⟨j, Nat.zero_le j, by omega, habs⟩
  simp only [hr]
  obtain ⟨ok2, correlated⟩ := r
  cases ok2 with
  | false => exact ⟨_, _, rfl, rfl⟩
  | true =>
    simp only
    cases request.get_optional_string "costing" with
    | none => exact ⟨_, _, rfl, rfl⟩
    | some costing =>
      simp only
      split
      · exact ⟨_, _, rfl, (init_multimodal_frame sif _ request).1⟩
      · split <;> exact ⟨_, _, rfl, rfl⟩

/-- C14. The date-time mapping: once `init_request` has parsed `n ≥ 2`
locations, it returns with as many locations, where type 0 tags the first with
`current`, type 1 tags the first with the value of `date_time.value`, type 2
tags the last with that value, and any other or absent type tags none; every
other location is as parsed. -/
theorem init_request_date_time {α π σ ρ : Type} (sif : Sif) (baldr : Baldr α π)
    (boost : Boost) (w : thor_worker_t α π σ ρ) (request ls : Ptree)
    (locations : List (Location α))
    (hls : request.get_child_optional "locations" = some ls)
    (hpush : push_locations baldr ls.children w.locations = (true, locations))
    (htwo : 2 ≤ locations.length) :
    ∃ res w1, init_request sif baldr boost w request = some (res, w1) ∧
      w1.locations.length = locations.length ∧
      (get_optional_int boost request "date_time.type" = some 0 →
        w1.locations[0]? = locations[0]?.map (fun l => { l with date_time_ := some "current" }) ∧
        ∀ i, i ≠ 0 → w1.locations[i]? = locations[i]?) ∧
      (get_optional_int boost request "date_time.type" = some 1 →
        w1.locations[0]? = locations[0]?.map
          (fun l => { l with date_time_ := request.get_optional_string "date_time.value" }) ∧
        ∀ i, i ≠ 0 → w1.locations[i]? = locations[i]?) ∧
      (get_optional_int boost request "date_time.type" = some 2 →
        w1.locations[locations.length - 1]? = locations[locations.length - 1]?.map
          (fun l => { l with date_time_ := request.get_optional_string "date_time.value" }) ∧
        ∀ i, i ≠ locations.length - 1 → w1.locations[i]? = locations[i]?) ∧
      (get_optional_int boost request "date_time.type" ≠ some 0 →
        get_optional_int boost request "date_time.type" ≠ some 1 →
        get_optional_int boost request "date_time.type" ≠ some 2 →
        w1.locations = locations) := by
  obtain ⟨res, w1, hinit, hloc⟩ :=
    init_request_locations sif baldr boost w request ls locations hls hpush htwo
  refine ⟨res, w1, hinit, ?_, ?_, ?_, ?_, ?_⟩
  · rw [hloc]
    unfold apply_date_time
    split
    · exact (set_front_date_time_spec _ _).1
    · split
      · exact (set_front_date_time_spec _ _).1
      · split
        · exact (set_back_date_time_spec _ _).1
        · rfl
  · intro h
    rw [hloc]
    simp only [apply_date_time, h, if_true]
    exact (set_front_date_time_spec _ _).2
  · intro h
    rw [hloc]
    have h0 : ¬ ((some 1 : Option Int) = some 0) := by decide
    simp only [apply_date_time, h, h0, if_true, if_false]
    exact (set_front_date_time_spec _ _).2
  · intro h
    rw [hloc]
    have h0 : ¬ ((some 2 : Option Int) = some 0) := by decide
    have h1 : ¬ ((some 2 : Option Int) = some 1) := by decide
    simp only [apply_date_time, h, h0, h1, if_true, if_false]
    exact (set_back_date_time_spec _ _).2
  · intro h0 h1 h2
    rw [hloc]
    simp only [apply_date_time, h0, h1, h2, if_false]

/-- C14, for scenario A with an arrive-by time: the last of the two locations
carries the time, the first is as parsed. -/
theorem init_request_date_time_witness :
    docArriveBy.get_child_optional "locations" =
      some (node [("", latlon "1" "1"), ("", latlon "2" "2")]) ∧
    push_locations demoBaldr (node [("", latlon "1" "1"), ("", latlon "2" "2")]).children
      demoServer.locations = (true, demoLocations) ∧
    2 ≤ demoLocations.length ∧
    get_optional_int demoBoost docArriveBy "date_time.type" = some 2 ∧
    docArriveBy.get_optional_string "date_time.value" = some "2016-07-03T08:06" ∧
    ∃ res w1, init_request demoSif demoBaldr demoBoost demoServer docArriveBy =
        some (res, w1) ∧
      w1.locations.length = demoLocations.length ∧
      (get_optional_int demoBoost docArriveBy "date_time.type" = some 0 →
        w1.locations[0]? =
          demoLocations[0]?.map (fun l => { l with date_time_ := some "current" }) ∧
        ∀ i, i ≠ 0 → w1.locations[i]? = demoLocations[i]?) ∧
      (get_optional_int demoBoost docArriveBy "date_time.type" = some 1 →
        w1.locations[0]? = demoLocations[0]?.map
          (fun l => { l with
            date_time_ := docArriveBy.get_optional_string "date_time.value" }) ∧
        ∀ i, i ≠ 0 → w1.locations[i]? = demoLocations[i]?) ∧
      (get_optional_int demoBoost docArriveBy "date_time.type" = some 2 →
        w1.locations[demoLocations.length - 1]? = demoLocations[demoLocations.length - 1]?.map
          (fun l => { l with
            date_time_ := docArriveBy.get_optional_string "date_time.value" }) ∧
        ∀ i, i ≠ demoLocations.length - 1 → w1.locations[i]? = demoLocations[i]?) ∧
      (get_optional_int demoBoost docArriveBy "date_time.type" ≠ some 0 →
        get_optional_int demoBoost docArriveBy "date_time.type" ≠ some 1 →
        get_optional_int demoBoost docArriveBy "date_time.type" ≠ some 2 →
        w1.locations = demoLocations) :=
  ⟨rfl, rfl, by decide, rfl, rfl,
    init_request_date_time demoSif demoBaldr demoBoost demoServer docArriveBy
      (node [("", latlon "1" "1"), ("", latlon "2" "2")]) demoLocations rfl rfl (by decide)⟩

/-! ## init_request: the cost-model table -/

/-- The result of `get_costing` depends on the worker through its configuration
and factory only. -/
theorem get_costing_congr {α π σ ρ : Type} (sif : Sif) (w w2 : thor_worker_t α π σ ρ)
    (request : Ptree) (costing : String) (hc : w2.config = w.config)
    (hf : w2.factory = w.factory) :
    get_costing sif w2 request costing = get_costing sif w request costing := by
  unfold get_costing
  rw [hc, hf]

/-- A successful multimodal costing step resolved the four methods in order
and filled the four slots with them. -/
theorem init_multimodal_ok {α π σ ρ : Type} (sif : Sif) (w w1 : thor_worker_t α π σ ρ)
    (request : Ptree) (costing : String)
    (h : init_multimodal sif w request = (Except.ok costing, w1)) :
    costing = "multimodal" ∧
    ∃ c0 c1 c2 c3, get_costing sif w request "auto" = Except.ok c0 ∧
      get_costing sif w request "pedestrian" = Except.ok c1 ∧
      get_costing sif w request "bicycle" = Except.ok c2 ∧
      get_costing sif w request "transit" = Except.ok c3 ∧
      w1 = { w with mode := TravelMode.kPedestrian,
                    mode_costing := { drive := some c0, pedestrian := some c1,
                                      bicycle := some c2, transit := some c3 } } := by
  unfold init_multimodal at h
  split at h
  · cases h
  · rename_i c0 h0
    dsimp only at h
    split at h
    · cases h
    · rename_i c1 h1
      split at h
      · cases h
      · rename_i c2 h2
        split at h
        · cases h
        · rename_i c3 h3
          injection h with hn hw
          injection hn with hn
          exact ⟨hn.symm, c0, c1, c2, c3, h0, h1, h2, h3, hw.symm⟩

/-- What a successful `init_request` went through: the costing name is the
`costing` field, and the worker is the one after the location and correlation
steps, with the costing step applied. -/
theorem init_request_ok {α π σ ρ : Type} (sif : Sif) (baldr : Baldr α π) (boost : Boost)
    (w w1 : thor_worker_t α π σ ρ) (request : Ptree) (costing : String)
    (h : init_request sif baldr boost w request = some (Except.ok costing, w1)) :
    ∃ locations correlated,
      request.get_optional_string "costing" = some costing ∧
      (costing = "multimodal" →
        init_multimodal sif { w with locations := locations, correlated := correlated } request =
          (Except.ok costing, w1)) ∧
      (costing ≠ "multimodal" →
        ∃ cost, get_costing sif w request costing = Except.ok cost ∧
          w1 = { w with locations := locations, correlated := correlated,
                        mode := sif.travelmode cost,
                        mode_costing := w.mode_costing.set (sif.travelmode cost) (some cost) }) := by
  unfold init_request at h
  split at h
  · cases h
  · split at h
    · cases h
    · split at h
      · cases h
      · dsimp only at h
        split at h
        · cases h
        · cases h
        · rename_i correlated _
          split at h
          · cases h
          · rename_i costing2 hc
            split at h
            · rename_i hmm
              injection h with h
              obtain ⟨hname, _⟩ := init_multimodal_ok sif _ w1 request costing h
              rw [hmm, ← hname] at hc
              exact ⟨_, correlated, hc, fun _ => h, fun hne => absurd hname hne⟩
            · rename_i hmm
              split at h
              · cases h
              · rename_i cost hcost
                injection h with h
                injection h with hn hw
                injection hn with hn
                subst hn
                exact ⟨_, correlated, hc, fun e => absurd e hmm, fun _ => ⟨cost, hcost, hw.symm⟩⟩

/-- C15, as the code has it. After a successful `init_request`: for
`multimodal` the four methods `auto`, `pedestrian`, `bicycle`, `transit` are
resolved and fill the slots 0 to 3, and the active mode is pedestrian; for any
other costing exactly one model is resolved, for the named method, the active
mode is its travel mode, the slot of that mode holds it, and every other slot
holds what it held before the call, so that a table without populated slot
ends with that one slot populated. -/
theorem init_request_cost_table {α π σ ρ : Type} (sif : Sif) (baldr : Baldr α π)
    (boost : Boost) (w w1 : thor_worker_t α π σ ρ) (request : Ptree) (costing : String)
    (h : init_request sif baldr boost w request = some (Except.ok costing, w1)) :
    (costing = "multimodal" →
      ∃ c0 c1 c2 c3, get_costing sif w request "auto" = Except.ok c0 ∧
        get_costing sif w request "pedestrian" = Except.ok c1 ∧
        get_costing sif w request "bicycle" = Except.ok c2 ∧
        get_costing sif w request "transit" = Except.ok c3 ∧
        w1.mode_costing = { drive := some c0, pedestrian := some c1,
                            bicycle := some c2, transit := some c3 } ∧
        w1.mode = TravelMode.kPedestrian) ∧
    (costing ≠ "multimodal" →
      ∃ cost, get_costing sif w request costing = Except.ok cost ∧
        w1.mode = sif.travelmode cost ∧
        w1.mode_costing.get (sif.travelmode cost) = some cost ∧
        (∀ m, m ≠ sif.travelmode cost → w1.mode_costing.get m = w.mode_costing.get m) ∧
        ((∀ m, w.mode_costing.get m = none) →
          ∀ m, (w1.mode_costing.get m).isSome = true ↔ m = sif.travelmode cost)) := by
  obtain ⟨locations, correlated, _, hmulti, hsingle⟩ :=
    init_request_ok sif baldr boost w w1 request costing h
  constructor
  · intro hm
    obtain ⟨_, c0, c1, c2, c3, h0, h1, h2, h3, hw⟩ :=
      init_multimodal_ok sif _ w1 request costing (hmulti hm)
    refine ⟨c0, c1, c2, c3, h0, h1, h2, h3, ?_, ?_⟩
    · rw [hw]
    · rw [hw]
  · intro hm
    obtain ⟨cost, hcost, hw⟩ := hsingle hm
    have hother : ∀ m, m ≠ sif.travelmode cost →
        w1.mode_costing.get m = w.mode_costing.get m := by
      intro m hne
      rw [hw]
      cases m <;> cases hmode : sif.travelmode cost <;>
        first
          | rfl
          | exact absurd hmode.symm hne
    refine ⟨cost, hcost, ?_, ?_, hother, ?_⟩
    · rw [hw]
    · rw [hw]
      exact ModeCosting.get_set _ _ _
    · intro hnone m
      constructor
      · intro hsome
        by_contra hne
        rw [hother m hne, hnone m] at hsome
        cases hsome
      · intro hm2
        rw [hm2, hw]
        simp only [ModeCosting.get_set, Option.isSome_some]

/-- C15, scenario A on a fresh server: one model, for `auto`, in the drive
slot, which is the active mode. -/
theorem init_request_cost_table_witness :
    init_request demoSif demoBaldr demoBoost demoServer docA =
      some (Except.ok "auto", demoServerA) ∧
    demoServerA.mode = TravelMode.kDrive ∧
    (("auto" : String) = "multimodal" →
      ∃ c0 c1 c2 c3, get_costing demoSif demoServer docA "auto" = Except.ok c0 ∧
        get_costing demoSif demoServer docA "pedestrian" = Except.ok c1 ∧
        get_costing demoSif demoServer docA "bicycle" = Except.ok c2 ∧
        get_costing demoSif demoServer docA "transit" = Except.ok c3 ∧
        demoServerA.mode_costing = { drive := some c0, pedestrian := some c1,
                                     bicycle := some c2, transit := some c3 } ∧
        demoServerA.mode = TravelMode.kPedestrian) ∧
    (("auto" : String) ≠ "multimodal" →
      ∃ cost, get_costing demoSif demoServer docA "auto" = Except.ok cost ∧
        demoServerA.mode = demoSif.travelmode cost ∧
        demoServerA.mode_costing.get (demoSif.travelmode cost) = some cost ∧
        (∀ m, m ≠ demoSif.travelmode cost →
          demoServerA.mode_costing.get m = demoServer.mode_costing.get m) ∧
        ((∀ m, demoServer.mode_costing.get m = none) →
          ∀ m, (demoServerA.mode_costing.get m).isSome = true ↔
            m = demoSif.travelmode cost)) :=
  ⟨rfl, rfl,
    init_request_cost_table demoSif demoBaldr demoBoost demoServer demoServerA docA "auto" rfl⟩

/-- C15, as stated, fails: on a worker that served a pedestrian request and was
cleaned up, the successful `init_request` of scenario A (costing `auto`) ends
with the active mode drive and two populated slots, drive and pedestrian. -/
theorem init_request_leaves_second_slot :
    ∃ w1, init_request demoSif demoBaldr demoBoost (afterRequest freshWorker docPedestrian)
        docA = some (Except.ok "auto", w1) ∧
      w1.mode = TravelMode.kDrive ∧
      w1.mode_costing.drive.isSome = true ∧
      w1.mode_costing.pedestrian.isSome = true ∧
      ¬ (∀ m, (w1.mode_costing.get m).isSome = true ↔ m = w1.mode) := by
  refine ⟨_, rfl, rfl, rfl, rfl, ?_⟩
  intro hall
  have := (hall TravelMode.kPedestrian).mp rfl
  cases this

/-! ## init_request: the scan of the correlated locations -/

/-- The `correlated_<i>` loop from index `i` with a first gap at `k` is the
scan of the entries `i` to `k - 1`. -/
theorem correlate_eq_scan {α π : Type} (baldr : Baldr α π) (request : Ptree)
    (locations : List (Location α)) (k fuel i : Nat) (correlated : List π)
    (hik : i ≤ k) (hk64 : k < 2 ^ 64) (hfuel : k - i < fuel)
    (hlt : ∀ j, i ≤ j → j < k →
      request.get_child_optional ("correlated_" ++ to_string j) ≠ none)
    (hk : request.get_child_optional ("correlated_" ++ to_string k) = none) :
    correlate baldr request locations fuel i correlated =
      some (scan_entries (baldr.PathLocation_FromPtree locations)
        (correlated_entries request i (k - i)) correlated) := by
  induction fuel generalizing i correlated with
  | zero => omega
  | succ fuel ih =>
    unfold correlate
    rcases Nat.eq_or_lt_of_le hik with heq | hlt2
    · subst heq
      simp only [hk, Nat.sub_self, correlated_entries, List.range'_zero, List.filterMap_nil,
        scan_entries]
    · obtain ⟨path_location, hp⟩ := Option.ne_none_iff_exists'.mp (hlt i (Nat.le_refl i) hlt2)
      have hsplit : k - i = (k - (i + 1)) + 1 := by omega
      have hentries : correlated_entries request i (k - i) =
          path_location :: correlated_entries request (i + 1) (k - (i + 1)) := by
        rw [hsplit]
        simp only [correlated_entries, List.range'_succ, List.filterMap_cons, hp]
      simp only [hp, hentries, scan_entries]
      cases baldr.PathLocation_FromPtree locations path_location with
      | none => rfl
      | some c =>
        have hmod : (i + 1) % 2 ^ 64 = i + 1 := Nat.mod_eq_of_lt (by omega)
        have hne : ¬ (i + 1) % 2 ^ 64 = 0 := by
          rw [hmod]
          omega
        simp only [hne, if_false, hmod]
        exact ih (i + 1) (correlated ++ [c]) hlt2 (by omega)
          (fun j h1 h2 => hlt j (by omega) h2)

/-- The scan of entries that all parse appends their parses in order. -/
theorem scan_entries_all {π : Type} (parse : Ptree → Option π) (entries : List Ptree)
    (correlated : List π) (h : ∀ e ∈ entries, parse e ≠ none) :
    scan_entries parse entries correlated = (true, correlated ++ entries.filterMap parse) := by
  induction entries generalizing correlated with
  | nil => simp [scan_entries]
  | cons e rest ih =>
    obtain ⟨c, hc⟩ := Option.ne_none_iff_exists'.mp (h e (List.mem_cons_self _ _))
    simp only [scan_entries, hc, List.filterMap_cons]
    rw [ih (correlated ++ [c]) (fun e' he' => h e' (List.mem_cons_of_mem _ he'))]
    simp

/-- The scan of entries of which one does not parse raises the failure flag. -/
theorem scan_entries_some_invalid {π : Type} (parse : Ptree → Option π)
    (entries : List Ptree) (correlated : List π) (h : ∃ e ∈ entries, parse e = none) :
    (scan_entries parse entries correlated).1 = false := by
  induction entries generalizing correlated with
  | nil =>
    obtain ⟨e, he, _⟩ := h
    cases he
  | cons e rest ih =>
    unfold scan_entries
    cases hp : parse e with
    | none => rfl
    | some c =>
      apply ih
      obtain ⟨e', he', hnone⟩ := h
      rcases List.mem_cons.mp he' with rfl | he'
      · rw [hp] at hnone
        cases hnone
      · exact ⟨e', he', hnone⟩

/-- The entries before the first gap are all there. -/
theorem correlated_entries_length (request : Ptree) (k : Nat)
    (hlt : ∀ j, j < k → request.get_child_optional ("correlated_" ++ to_string j) ≠ none) :
    (correlated_entries request 0 k).length = k := by
  induction k with
  | zero => simp [correlated_entries]
  | succ k ih =>
    obtain ⟨e, he⟩ := Option.ne_none_iff_exists'.mp (hlt k (Nat.lt_succ_self k))
    have hk := ih (fun j hj => hlt j (Nat.lt_succ_of_lt hj))
    simp only [correlated_entries] at hk ⊢
    rw [List.range'_concat, List.filterMap_append, List.length_append, hk]
    simp [he]

/-- The first gap lies within the number of children of the request. -/
theorem first_gap_le_length (request : Ptree) (k : Nat)
    (hlt : ∀ j, j < k → request.get_child_optional ("correlated_" ++ to_string j) ≠ none) :
    k ≤ request.children.length := by
  obtain ⟨j, hj, habs⟩ := exists_absent_correlated request
  by_contra hcon
  exact hlt j (by omega) habs

/-- C16. The correlated-location scan. Let `k` be the least index without a
`correlated_<k>` child, in a request of fewer than `2^64` children that passes
the location step. Then `k` is at most the number of children, the loop of
`init_request` returns the scan of exactly the `k` entries
`correlated_0 … correlated_(k-1)`, in index order, and `init_request` returns
with the correlated list of that scan: the old list followed by the parses of
all `k` entries when they all parse, and a `Failed to parse correlated location`
exception when one of them does not. Entries behind the gap play no part: a
request that agrees up to index `k` gives the same scan. -/
theorem init_request_correlated_scan {α π σ ρ : Type} (sif : Sif) (baldr : Baldr α π)
    (boost : Boost) (w : thor_worker_t α π σ ρ) (request ls : Ptree)
    (locations : List (Location α)) (k : Nat)
    (hsize : request.children.length < 2 ^ 64)
    (hls : request.get_child_optional "locations" = some ls)
    (hpush : push_locations baldr ls.children w.locations = (true, locations))
    (htwo : 2 ≤ locations.length)
    (hk : request.get_child_optional ("correlated_" ++ to_string k) = none)
    (hlt : ∀ j, j < k → request.get_child_optional ("correlated_" ++ to_string j) ≠ none) :
    k ≤ request.children.length ∧
    (correlated_entries request 0 k).length = k ∧
    correlate baldr request (dated_locations boost request locations)
        (request.children.length + 1) 0 w.correlated =
      some (scan_entries (baldr.PathLocation_FromPtree (dated_locations boost request locations))
        (correlated_entries request 0 k) w.correlated) ∧
    (∃ res w1, init_request sif baldr boost w request = some (res, w1) ∧
      w1.correlated =
        (scan_entries (baldr.PathLocation_FromPtree (dated_locations boost request locations))
          (correlated_entries request 0 k) w.correlated).2 ∧
      ((∀ e ∈ correlated_entries request 0 k,
          baldr.PathLocation_FromPtree (dated_locations boost request locations) e ≠ none) →
        w1.correlated = w.correlated ++ (correlated_entries request 0 k).filterMap
          (baldr.PathLocation_FromPtree (dated_locations boost request locations))) ∧
      ((∃ e ∈ correlated_entries request 0 k,
          baldr.PathLocation_FromPtree (dated_locations boost request locations) e = none) →
        res = Except.error "Failed to parse correlated location")) ∧
    (∀ other : Ptree, other.children.length < 2 ^ 64 →
      (∀ j, j ≤ k → other.get_child_optional ("correlated_" ++ to_string j) =
        request.get_child_optional ("correlated_" ++ to_string j)) →
      correlate baldr other (dated_locations boost request locations)
          (other.children.length + 1) 0 w.correlated =
        correlate baldr request (dated_locations boost request locations)
          (request.children.length + 1) 0 w.correlated) := by
  have hle := first_gap_le_length request k hlt
  unfold dated_locations
  generalize hL : apply_date_time (get_optional_int boost request "date_time.type")
    (request.get_optional_string "date_time.value") locations = L
  have hscan := correlate_eq_scan baldr request L k
    (request.children.length + 1) 0 w.correlated (Nat.zero_le k) (by omega) (by omega)
    (fun j _ hj => hlt j hj) hk
  rw [Nat.sub_zero] at hscan
  refine ⟨hle, correlated_entries_length request k hlt, hscan, ?_, ?_⟩
  · have hall : (∀ e ∈ correlated_entries request 0 k,
        baldr.PathLocation_FromPtree L e ≠ none) →
        (scan_entries (baldr.PathLocation_FromPtree L) (correlated_entries request 0 k)
          w.correlated).2 = w.correlated ++ (correlated_entries request 0 k).filterMap
          (baldr.PathLocation_FromPtree L) := by
      intro h
      rw [scan_entries_all _ _ w.correlated h]
    have hbad : (∃ e ∈ correlated_entries request 0 k,
        baldr.PathLocation_FromPtree L e = none) →
        (scan_entries (baldr.PathLocation_FromPtree L) (correlated_entries request 0 k)
          w.correlated).1 = false :=
      fun h => scan_entries_some_invalid _ _ w.correlated h
    unfold init_request
    simp only [hls, hpush, if_neg (Nat.not_lt.mpr htwo), hL, hscan]
    revert hall hbad
    rcases scan_entries (baldr.PathLocation_FromPtree L) (correlated_entries request 0 k)
      w.correlated with ⟨ok, correlated⟩
    intro hall hbad
    simp only at hall hbad
    cases ok with
    | false => exact ⟨_, _, rfl, rfl, hall, fun _ => rfl⟩
    | true =>
      simp only
      cases request.get_optional_string "costing" with
      | none => exact ⟨_, _, rfl, rfl, hall, fun h => absurd (hbad h) (by decide)⟩
      | some costing =>
        simp only
        split
        · exact ⟨_, _, rfl, (init_multimodal_frame sif _ request).2.1,
            fun h => ((init_multimodal_frame sif _ request).2.1).trans (hall h),
            fun h => absurd (hbad h) (by decide)⟩
        · split <;> exact ⟨_, _, rfl, rfl, hall, fun h => absurd (hbad h) (by decide)⟩
  · intro other hosize hagree
    have hk2 : other.get_child_optional ("correlated_" ++ to_string k) = none := by
      rw [hagree k (Nat.le_refl k), hk]
    have hlt2 : ∀ j, j < k →
        other.get_child_optional ("correlated_" ++ to_string j) ≠ none := by
      intro j hj
      rw [hagree j (Nat.le_of_lt hj)]
      exact hlt j hj
    have hle2 := first_gap_le_length other k hlt2
    have hscan2 := correlate_eq_scan baldr other L k
      (other.children.length + 1) 0 w.correlated (Nat.zero_le k) (by omega) (by omega)
      (fun j _ hj => hlt2 j hj) hk2
    rw [Nat.sub_zero] at hscan2
    have hsame : correlated_entries other 0 k = correlated_entries request 0 k := by
      unfold correlated_entries
      apply List.filterMap_congr
      intro j hj
      have := (List.mem_range'_1.mp hj).2
      exact hagree j (by omega)
    rw [hscan, hscan2, hsame]

/-- The decimal strings of 0, 1 and 2. -/
theorem to_string_small : to_string 0 = "0" ∧ to_string 1 = "1" ∧ to_string 2 = "2" := by
  refine ⟨rfl, ?_, ?_⟩
  · simp [to_string]
    decide
  · simp [to_string]
    decide

/-- C16, for a request with `correlated_0`, `correlated_1` and, behind the gap
at 2, an unparsable `correlated_3`: the two entries before the gap are parsed
and appended, the third is never looked at. -/
theorem init_request_correlated_scan_witness :
    docCorrelated.children.length < 2 ^ 64 ∧
    docCorrelated.get_child_optional "locations" =
      some (node [("", latlon "1" "1"), ("", latlon "2" "2")]) ∧
    push_locations demoBaldr (node [("", latlon "1" "1"), ("", latlon "2" "2")]).children
      demoServer.locations = (true, demoLocations) ∧
    2 ≤ demoLocations.length ∧
    docCorrelated.get_child_optional ("correlated_" ++ to_string 2) = none ∧
    (∀ j, j < 2 → docCorrelated.get_child_optional ("correlated_" ++ to_string j) ≠ none) ∧
    docCorrelated.get_child_optional "correlated_3" = some (node []) ∧
    demoBaldr.PathLocation_FromPtree demoLocations (node []) = none ∧
    correlated_entries docCorrelated 0 2 = [correlatedEntry "10", correlatedEntry "11"] ∧
    scan_entries
        (demoBaldr.PathLocation_FromPtree (dated_locations demoBoost docCorrelated demoLocations))
        [correlatedEntry "10", correlatedEntry "11"] demoServer.correlated =
      (true, [correlatedEntry "10", correlatedEntry "11"]) ∧
    (2 ≤ docCorrelated.children.length ∧
    (correlated_entries docCorrelated 0 2).length = 2 ∧
    correlate demoBaldr docCorrelated (dated_locations demoBoost docCorrelated demoLocations)
        (docCorrelated.children.length + 1) 0 demoServer.correlated =
      some (scan_entries
        (demoBaldr.PathLocation_FromPtree (dated_locations demoBoost docCorrelated demoLocations))
        (correlated_entries docCorrelated 0 2) demoServer.correlated) ∧
    (∃ res w1, init_request demoSif demoBaldr demoBoost demoServer docCorrelated =
        some (res, w1) ∧
      w1.correlated =
        (scan_entries
          (demoBaldr.PathLocation_FromPtree
            (dated_locations demoBoost docCorrelated demoLocations))
          (correlated_entries docCorrelated 0 2) demoServer.correlated).2 ∧
      ((∀ e ∈ correlated_entries docCorrelated 0 2,
          demoBaldr.PathLocation_FromPtree
            (dated_locations demoBoost docCorrelated demoLocations) e ≠ none) →
        w1.correlated = demoServer.correlated ++ (correlated_entries docCorrelated 0 2).filterMap
          (demoBaldr.PathLocation_FromPtree
            (dated_locations demoBoost docCorrelated demoLocations))) ∧
      ((∃ e ∈ correlated_entries docCorrelated 0 2,
          demoBaldr.PathLocation_FromPtree
            (dated_locations demoBoost docCorrelated demoLocations) e = none) →
        res = Except.error "Failed to parse correlated location")) ∧
    (∀ other : Ptree, other.children.length < 2 ^ 64 →
      (∀ j, j ≤ 2 → other.get_child_optional ("correlated_" ++ to_string j) =
        docCorrelated.get_child_optional ("correlated_" ++ to_string j)) →
      correlate demoBaldr other (dated_locations demoBoost docCorrelated demoLocations)
          (other.children.length + 1) 0 demoServer.correlated =
        correlate demoBaldr docCorrelated
          (dated_locations demoBoost docCorrelated demoLocations)
          (docCorrelated.children.length + 1) 0 demoServer.correlated)) := by
  have hk : docCorrelated.get_child_optional ("correlated_" ++ to_string 2) = none := by
    rw [to_string_small.2.2]
    rfl
  have hlt : ∀ j, j < 2 →
      docCorrelated.get_child_optional ("correlated_" ++ to_string j) ≠ none := by
    intro j hj h
    interval_cases j
    · rw [to_string_small.1] at h
      have h2 : docCorrelated.get_child_optional ("correlated_" ++ "0") =
          some (correlatedEntry "10") := rfl
      rw [h2] at h
      cases h
    · rw [to_string_small.2.1] at h
      have h2 : docCorrelated.get_child_optional ("correlated_" ++ "1") =
          some (correlatedEntry "11") := rfl
      rw [h2] at h
      cases h
  have h0 : docCorrelated.get_child_optional ("correlated_" ++ "0") =
      some (correlatedEntry "10") := rfl
  have h1 : docCorrelated.get_child_optional ("correlated_" ++ "1") =
      some (correlatedEntry "11") := rfl
  have hentries : correlated_entries docCorrelated 0 2 =
      [correlatedEntry "10", correlatedEntry "11"] := by
    have hr : List.range' 0 2 = [0, 1] := rfl
    simp only [correlated_entries, hr, List.filterMap_cons, List.filterMap_nil,
      to_string_small, h0, h1]
  exact ⟨by decide, rfl, rfl, by decide, hk, hlt, rfl, rfl, hentries, rfl,
    init_request_correlated_scan demoSif demoBaldr demoBoost demoServer docCorrelated
      (node [("", latlon "1" "1"), ("", latlon "2" "2")]) demoLocations 2
      (by decide) rfl rfl (by decide) hk hlt⟩

/-! ## cleanup and what the next request sees -/

/-- C17. From every worker state, after `cleanup` the locations and the
correlated locations are empty, each of the three path algorithms has been
`Clear`ed, and the graph reader has been cleared exactly when it reported
being over-committed and is untouched otherwise. The active mode, the
cost-model table, the configuration and the factory are as before. -/
theorem cleanup_spec {α π σ ρ : Type} (astar_Clear bidir_astar_Clear multi_modal_astar_Clear : σ → σ)
    (graph : GraphReader ρ) (w : thor_worker_t α π σ ρ) :
    (cleanup astar_Clear bidir_astar_Clear multi_modal_astar_Clear graph w).locations = [] ∧
    (cleanup astar_Clear bidir_astar_Clear multi_modal_astar_Clear graph w).correlated = [] ∧
    (cleanup astar_Clear bidir_astar_Clear multi_modal_astar_Clear graph w).astar =
      astar_Clear w.astar ∧
    (cleanup astar_Clear bidir_astar_Clear multi_modal_astar_Clear graph w).bidir_astar =
      bidir_astar_Clear w.bidir_astar ∧
    (cleanup astar_Clear bidir_astar_Clear multi_modal_astar_Clear graph w).multi_modal_astar =
      multi_modal_astar_Clear w.multi_modal_astar ∧
    (graph.OverCommitted w.reader = true →
      (cleanup astar_Clear bidir_astar_Clear multi_modal_astar_Clear graph w).reader =
        graph.Clear w.reader) ∧
    (graph.OverCommitted w.reader = false →
      (cleanup astar_Clear bidir_astar_Clear multi_modal_astar_Clear graph w).reader =
        w.reader) ∧
    (cleanup astar_Clear bidir_astar_Clear multi_modal_astar_Clear graph w).mode = w.mode ∧
    (cleanup astar_Clear bidir_astar_Clear multi_modal_astar_Clear graph w).mode_costing =
      w.mode_costing ∧
    (cleanup astar_Clear bidir_astar_Clear multi_modal_astar_Clear graph w).config = w.config ∧
    (cleanup astar_Clear bidir_astar_Clear multi_modal_astar_Clear graph w).factory =
      w.factory := by
  refine ⟨rfl, rfl, rfl, rfl, rfl, ?_, ?_, rfl, rfl, rfl, rfl⟩
  · intro h
    simp [cleanup, h]
  · intro h
    simp [cleanup, h]

/-- C17, on a worker left by a request that failed part-way, with an
over-committed reader: the lists are emptied, the algorithms and the reader are
cleared. -/
theorem cleanup_spec_witness :
    demoGraph.OverCommitted (demoGraphWorker 3).reader = true ∧
    (demoGraphWorker 3).locations = demoLocations ∧
    demoCleanup (demoGraphWorker 3) =
      { (demoGraphWorker 3) with
        locations := [], correlated := [], astar := 0, bidir_astar := 0,
        multi_modal_astar := 0, reader := 0 } ∧
    demoGraph.OverCommitted (demoGraphWorker 2).reader = false ∧
    (demoCleanup (demoGraphWorker 2)).reader = 2 ∧
    (demoCleanup (demoGraphWorker 3)).reader = demoGraph.Clear (demoGraphWorker 3).reader :=
  ⟨rfl, rfl, rfl, rfl, rfl,
    (cleanup_spec (fun _ => 0) (fun _ => 0) (fun _ => 0) demoGraph
      (demoGraphWorker 3)).2.2.2.2.2.1 rfl⟩

/-- The call `get_costing` on a worker rebuilt around the configuration and
factory of `w` is the call on `w`. -/
theorem get_costing_update {α π σ ρ : Type} (sif : Sif) (w : thor_worker_t α π σ ρ)
    (request : Ptree) (costing : String) (m : TravelMode) (r : ρ)
    (locations : List (Location α)) (correlated : List π) (mc : ModeCosting) (a b c : σ) :
    get_costing sif
      { mode := m, config := w.config, factory := w.factory, reader := r,
        locations := locations, correlated := correlated, mode_costing := mc,
        astar := a, bidir_astar := b, multi_modal_astar := c } request costing =
      get_costing sif w request costing := rfl

/-- The multimodal costing step, seen from the outside: its result, and how it
changes the mode and the table, depend on the worker through its configuration
and factory only. -/
theorem init_multimodal_frame_act {α π σ ρ : Type} (sif : Sif) (w : thor_worker_t α π σ ρ)
    (request : Ptree) :
    ∃ (res : Except String String) (f : TravelMode → TravelMode)
      (g : ModeCosting → ModeCosting),
      (∀ (m : TravelMode) (r : ρ) (locations : List (Location α)) (correlated : List π)
          (mc : ModeCosting) (a b c : σ),
        init_multimodal sif
          ({ mode := m, config := w.config, factory := w.factory, reader := r,
             locations := locations, correlated := correlated, mode_costing := mc,
             astar := a, bidir_astar := b, multi_modal_astar := c } :
            thor_worker_t α π σ ρ) request =
          (res,
            { mode := f m, config := w.config, factory := w.factory, reader := r,
              locations := locations, correlated := correlated, mode_costing := g mc,
              astar := a, bidir_astar := b, multi_modal_astar := c })) ∧
      (∀ costing, res = Except.ok costing → ∀ m m2 mc mc2, f m = f m2 ∧ g mc = g mc2) := by
  cases h0 : get_costing sif w request "auto" with
  | error e =>
    refine ⟨Except.error e, id, id, ?_, fun _ h => by cases h⟩
    intro m r locations correlated mc a b c
    simp only [init_multimodal, get_costing_update, h0, id]
  | ok c0 =>
    cases h1 : get_costing sif w request "pedestrian" with
    | error e =>
      refine ⟨Except.error e, id, fun mc => { mc with drive := some c0 }, ?_,
        fun _ h => by cases h⟩
      intro m r locations correlated mc a b c
      simp only [init_multimodal, get_costing_update, h0, h1, id]
    | ok c1 =>
      cases h2 : get_costing sif w request "bicycle" with
      | error e =>
        refine ⟨Except.error e, id,
          fun mc => { mc with drive := some c0, pedestrian := some c1 }, ?_,
          fun _ h => by cases h⟩
        intro m r locations correlated mc a b c
        simp only [init_multimodal, get_costing_update, h0, h1, h2, id]
      | ok c2 =>
        cases h3 : get_costing sif w request "transit" with
        | error e =>
          refine ⟨Except.error e, id,
            fun mc => { mc with drive := some c0, pedestrian := some c1, bicycle := some c2 },
            ?_, fun _ h => by cases h⟩
          intro m r locations correlated mc a b c
          simp only [init_multimodal, get_costing_update, h0, h1, h2, h3, id]
        | ok c3 =>
          refine ⟨Except.ok "multimodal", fun _ => TravelMode.kPedestrian,
            fun _ => { drive := some c0, pedestrian := some c1, bicycle := some c2,
                       transit := some c3 }, ?_, fun _ _ _ _ _ _ => ⟨rfl, rfl⟩⟩
          intro m r locations correlated mc a b c
          simp only [init_multimodal, get_costing_update, h0, h1, h2, h3]

/-- The parser, seen from the outside: what `init_request` returns, the lists
it leaves, and how it changes the mode and the table depend on the worker
through its configuration, factory, locations and correlated locations only. On
success the mode and the slot of that mode do not depend on what they were
before, and for `multimodal` the whole table does not. -/
theorem init_request_frame {α π σ ρ : Type} (sif : Sif) (baldr : Baldr α π) (boost : Boost)
    (w : thor_worker_t α π σ ρ) (request : Ptree) :
    ∃ (res : Except String String) (locations : List (Location α)) (correlated : List π)
      (f : TravelMode → TravelMode) (g : ModeCosting → ModeCosting),
      (∀ (m : TravelMode) (r : ρ) (mc : ModeCosting) (a b c : σ),
        init_request sif baldr boost
          ({ mode := m, config := w.config, factory := w.factory, reader := r,
             locations := w.locations, correlated := w.correlated, mode_costing := mc,
             astar := a, bidir_astar := b, multi_modal_astar := c } :
            thor_worker_t α π σ ρ) request =
          some (res,
            { mode := f m, config := w.config, factory := w.factory, reader := r,
              locations := locations, correlated := correlated, mode_costing := g mc,
              astar := a, bidir_astar := b, multi_modal_astar := c })) ∧
      (∀ costing, res = Except.ok costing → ∀ m m2 mc mc2,
        f m = f m2 ∧ (g mc).get (f m) = (g mc2).get (f m) ∧
        (costing = "multimodal" → g mc = g mc2)) := by
  cases hl : request.get_child_optional "locations" with
  | none =>
    refine ⟨Except.error "Insufficiently specified required parameter 'locations'",
      w.locations, w.correlated, id, id, ?_, fun _ h => by cases h⟩
    intro m r mc a b c
    simp only [init_request, hl, id]
  | some ls =>
    rcases hp : push_locations baldr ls.children w.locations with ⟨ok, locations⟩
    cases ok with
    | false =>
      refine ⟨Except.error "Failed to parse location", locations, w.correlated, id, id, ?_,
        fun _ h => by cases h⟩
      intro m r mc a b c
      simp only [init_request, hl, hp, id]
    | true =>
      by_cases hlen : locations.length < 2
      · refine ⟨Except.error "Insufficient number of locations provided", locations,
          w.correlated, id, id, ?_, fun _ h => by cases h⟩
        intro m r mc a b c
        simp only [init_request, hl, hp, hlen, if_true, id]
      · obtain ⟨j, hj, habs⟩ := exists_absent_correlated request
        obtain ⟨⟨ok2, correlated⟩, hr⟩ := correlate_returns baldr request
          (apply_date_time (get_optional_int boost request "date_time.type")
            (request.get_optional_string "date_time.value") locations)
          (request.children.length + 1) 0 w.correlated (by norm_num)
          ⟨j, Nat.zero_le j, by omega, habs⟩
        cases ok2 with
        | false =>
          refine ⟨Except.error "Failed to parse correlated location",
            (apply_date_time (get_optional_int boost request "date_time.type")
              (request.get_optional_string "date_time.value") locations),
            correlated, id, id,
            ?_, fun _ h => by cases h⟩
          intro m r mc a b c
          simp only [init_request, hl, hp, hlen, if_false, hr, id]
        | true =>
          cases hc : request.get_optional_string "costing" with
          | none =>
            refine ⟨Except.error "No edge/node costing provided",
            (apply_date_time (get_optional_int boost request "date_time.type")
              (request.get_optional_string "date_time.value") locations),
            correlated, id, id,
              ?_, fun _ h => by cases h⟩
            intro m r mc a b c
            simp only [init_request, hl, hp, hlen, if_false, hr, hc, id]
          | some costing =>
            by_cases hmm : costing = "multimodal"
            · obtain ⟨res, f, g, hact, hsame⟩ := init_multimodal_frame_act sif w request
              refine ⟨res,
            (apply_date_time (get_optional_int boost request "date_time.type")
              (request.get_optional_string "date_time.value") locations),
            correlated, f, g, ?_, ?_⟩
              · intro m r mc a b c
                simp only [init_request, hl, hp, hlen, if_false, hr, hc, hmm, if_true, hact]
              · intro costing2 hres m m2 mc mc2
                obtain ⟨h1, h2⟩ := hsame costing2 hres m m2 mc mc2
                exact ⟨h1, by rw [h2], fun _ => h2⟩
            · cases hg : get_costing sif w request costing with
              | error e =>
                refine ⟨Except.error e,
            (apply_date_time (get_optional_int boost request "date_time.type")
              (request.get_optional_string "date_time.value") locations),
            correlated, id, id, ?_, fun _ h => by cases h⟩
                intro m r mc a b c
                simp only [init_request, hl, hp, hlen, if_false, hr, hc, hmm,
                  get_costing_update, hg, id]
              | ok cost =>
                refine ⟨Except.ok costing,
            (apply_date_time (get_optional_int boost request "date_time.type")
              (request.get_optional_string "date_time.value") locations),
            correlated, fun _ => sif.travelmode cost,
                  fun mc => mc.set (sif.travelmode cost) (some cost), ?_, ?_⟩
                · intro m r mc a b c
                  simp only [init_request, hl, hp, hlen, if_false, hr, hc, hmm,
                    get_costing_update, hg]
                · intro costing2 hres m m2 mc mc2
                  injection hres with hres
                  refine ⟨rfl, ?_, fun h => absurd (hres.trans h) hmm⟩
                  simp only [ModeCosting.get_set]

/-- C18, as the code has it. After `cleanup` the locations and the correlated
locations are empty, while the cost-model table and the active mode are kept.
Take two workers of one server (same configuration, same factory), in any state
their histories left them, and run `cleanup` on each. Then `init_request` on
the same document returns the same outcome on both and leaves the same
locations and the same correlated locations; when it succeeds it also leaves
the same active mode and the same cost model in the slot of that mode, and for
`multimodal` the same table. -/
theorem init_request_after_cleanup {α π σ ρ : Type} (sif : Sif) (baldr : Baldr α π)
    (boost : Boost) (astar_Clear bidir_astar_Clear multi_modal_astar_Clear : σ → σ)
    (graph : GraphReader ρ) (wa wb : thor_worker_t α π σ ρ) (request : Ptree)
    (hconfig : wa.config = wb.config) (hfactory : wa.factory = wb.factory) :
    (cleanup astar_Clear bidir_astar_Clear multi_modal_astar_Clear graph wa).locations = [] ∧
    (cleanup astar_Clear bidir_astar_Clear multi_modal_astar_Clear graph wa).correlated = [] ∧
    (cleanup astar_Clear bidir_astar_Clear multi_modal_astar_Clear graph wa).mode_costing =
      wa.mode_costing ∧
    (cleanup astar_Clear bidir_astar_Clear multi_modal_astar_Clear graph wa).mode = wa.mode ∧
    ∃ res wa1 wb1,
      init_request sif baldr boost
        (cleanup astar_Clear bidir_astar_Clear multi_modal_astar_Clear graph wa) request =
        some (res, wa1) ∧
      init_request sif baldr boost
        (cleanup astar_Clear bidir_astar_Clear multi_modal_astar_Clear graph wb) request =
        some (res, wb1) ∧
      wa1.locations = wb1.locations ∧ wa1.correlated = wb1.correlated ∧
      (∀ costing, res = Except.ok costing →
        wa1.mode = wb1.mode ∧
        wa1.mode_costing.get wa1.mode = wb1.mode_costing.get wb1.mode ∧
        (costing = "multimodal" → wa1.mode_costing = wb1.mode_costing)) := by
  obtain ⟨ma, cfg, fac, ra, la, ca, mca, aa, ba, mma⟩ := wa
  obtain ⟨mb, cfgb, facb, rb, lb, cb, mcb, ab, bb, mmb⟩ := wb
  simp only at hconfig hfactory
  subst hconfig hfactory
  obtain ⟨res, L, C, f, g, hact, hsame⟩ := init_request_frame sif baldr boost
    (cleanup astar_Clear bidir_astar_Clear multi_modal_astar_Clear graph
      ⟨ma, cfg, fac, ra, la, ca, mca, aa, ba, mma⟩) request
  refine ⟨rfl, rfl, rfl, rfl, res, _, _,
    hact ma (if graph.OverCommitted ra then graph.Clear ra else ra) mca
      (astar_Clear aa) (bidir_astar_Clear ba) (multi_modal_astar_Clear mma),
    hact mb (if graph.OverCommitted rb then graph.Clear rb else rb) mcb
      (astar_Clear ab) (bidir_astar_Clear bb) (multi_modal_astar_Clear mmb),
    rfl, rfl, ?_⟩
  intro costing hres
  obtain ⟨h1, h2, h3⟩ := hsame costing hres ma mb mca mcb
  refine ⟨h1, ?_, h3⟩
  show (g mca).get (f ma) = (g mcb).get (f mb)
  rw [← h1]
  exact h2

/-- C18, for a fresh worker and a worker that served a multimodal request:
after `cleanup`, scenario A has the same outcome, lists, mode and drive slot on
both. -/
theorem init_request_after_cleanup_witness :
    freshWorker.config = (afterRequest freshWorker docMultimodal).config ∧
    freshWorker.factory = (afterRequest freshWorker docMultimodal).factory ∧
    (cleanup (fun _ => 0) (fun _ => 0) (fun _ => 0) demoGraph freshWorker).locations = [] ∧
    (cleanup (fun _ => 0) (fun _ => 0) (fun _ => 0) demoGraph freshWorker).correlated = [] ∧
    (cleanup (fun _ => 0) (fun _ => 0) (fun _ => 0) demoGraph freshWorker).mode_costing =
      freshWorker.mode_costing ∧
    (cleanup (fun _ => 0) (fun _ => 0) (fun _ => 0) demoGraph freshWorker).mode =
      freshWorker.mode ∧
    ∃ res wa1 wb1,
      init_request demoSif demoBaldr demoBoost
        (cleanup (fun _ => 0) (fun _ => 0) (fun _ => 0) demoGraph freshWorker) docA =
        some (res, wa1) ∧
      init_request demoSif demoBaldr demoBoost
        (cleanup (fun _ => 0) (fun _ => 0) (fun _ => 0) demoGraph
          (afterRequest freshWorker docMultimodal)) docA = some (res, wb1) ∧
      wa1.locations = wb1.locations ∧ wa1.correlated = wb1.correlated ∧
      (∀ costing, res = Except.ok costing →
        wa1.mode = wb1.mode ∧
        wa1.mode_costing.get wa1.mode = wb1.mode_costing.get wb1.mode ∧
        (costing = "multimodal" → wa1.mode_costing = wb1.mode_costing)) :=
  ⟨rfl, rfl,
    init_request_after_cleanup demoSif demoBaldr demoBoost (fun _ => 0) (fun _ => 0)
      (fun _ => 0) demoGraph freshWorker (afterRequest freshWorker docMultimodal) docA rfl rfl⟩

/-- C18, as stated, fails: `cleanup` empties the two lists but keeps the
cost-model table and the mode. After a multimodal request and `cleanup` all
four slots are still populated, and the same scenario A then ends with four
populated slots, whereas on a fresh worker it ends with one. -/
theorem cleanup_keeps_cost_table :
    ∃ wa1 wb1,
      (afterRequest freshWorker docMultimodal).locations = [] ∧
      (afterRequest freshWorker docMultimodal).correlated = [] ∧
      (afterRequest freshWorker docMultimodal).mode_costing.drive.isSome = true ∧
      (afterRequest freshWorker docMultimodal).mode_costing.pedestrian.isSome = true ∧
      (afterRequest freshWorker docMultimodal).mode_costing.bicycle.isSome = true ∧
      (afterRequest freshWorker docMultimodal).mode_costing.transit.isSome = true ∧
      init_request demoSif demoBaldr demoBoost (demoCleanup freshWorker) docA =
        some (Except.ok "auto", wa1) ∧
      init_request demoSif demoBaldr demoBoost (afterRequest freshWorker docMultimodal) docA =
        some (Except.ok "auto", wb1) ∧
      wa1.mode_costing.pedestrian.isSome = false ∧
      wb1.mode_costing.pedestrian.isSome = true ∧
      wa1.mode_costing.transit.isSome = false ∧
      wb1.mode_costing.transit.isSome = true :=
  ⟨_, _, rfl, rfl, rfl, rfl, rfl, rfl, rfl, rfl, rfl, rfl, rfl, rfl⟩

/-! ## GetPath: what one invocation hands to the next -/

/-- Reading a slot other than the one just assigned. -/
theorem ModeCosting.get_set_ne (t : ModeCosting) (mode m : TravelMode) (c : Option DynamicCost)
    (h : m ≠ mode) : (t.set mode c).get m = t.get m := by
  cases mode <;> cases m <;> first | rfl | exact absurd rfl h

/-- C19, as the code has it. The first `GetBestPath` call of every `GetPath`
invocation is made with the cost-model table and mode as they are at entry.
`GetPath` keeps the mode and every slot but the active one, and never restores
the active model: after a single pass the table is unchanged, and after an
invocation that went on to pass 2 or 3 the active slot holds the model relaxed
with 16, or relaxed and with highway transitions disabled, which is what the
next invocation on this table starts with. -/
theorem GetPath_first_pass_table {α π σ ρ τ : Type} (sif : Sif) (alg : PathAlgorithm π σ ρ τ)
    (w : thor_worker_t α π σ ρ) (path_algorithm : σ) (origin destination : π)
    (r : GetPathResult α π σ ρ τ)
    (h : GetPath sif alg w path_algorithm origin destination = some r) :
    r.trace.take 2 = [Event.Log "#_passes::1", Event.GetBestPath w.mode_costing w.mode] ∧
    r.worker.mode = w.mode ∧
    (∀ m, m ≠ w.mode → r.worker.mode_costing.get m = w.mode_costing.get m) ∧
    (r.trace.countP Event.isGetBestPath = 1 → r.worker.mode_costing = w.mode_costing) ∧
    (r.trace.countP Event.isGetBestPath = 2 →
      ∃ cost, w.mode_costing.get w.mode = some cost ∧
        r.worker.mode_costing.get w.mode = some (cost.RelaxHierarchyLimits 16)) ∧
    (r.trace.countP Event.isGetBestPath = 3 →
      ∃ cost, w.mode_costing.get w.mode = some cost ∧
        r.worker.mode_costing.get w.mode =
          some (cost.RelaxHierarchyLimits 16).DisableHighwayTransitions) ∧
    (r.trace.countP Event.isGetBestPath = 1 ∨ r.trace.countP Event.isGetBestPath = 2 ∨
      r.trace.countP Event.isGetBestPath = 3) := by
  unfold GetPath at h
  dsimp only at h
  split at h
  · split at h
    · cases h
    · rename_i cost hcost
      split at h
      · split at h
        · injection h with h
          subst h
          refine ⟨rfl, rfl, ?_, ?_, ?_, ?_, Or.inr (Or.inr rfl)⟩
          · intro m hm
            show ((w.mode_costing.set w.mode _).set w.mode _).get m = _
            rw [ModeCosting.get_set_ne _ _ _ _ hm, ModeCosting.get_set_ne _ _ _ _ hm]
          · intro hc
            exact absurd (show (3 : Nat) = 1 from hc) (by decide)
          · intro hc
            exact absurd (show (3 : Nat) = 2 from hc) (by decide)
          · intro _
            exact ⟨cost, hcost, ModeCosting.get_set _ _ _⟩
        · injection h with h
          subst h
          refine ⟨rfl, rfl, ?_, ?_, ?_, ?_, Or.inr (Or.inl rfl)⟩
          · intro m hm
            exact ModeCosting.get_set_ne _ _ _ _ hm
          · intro hc
            exact absurd (show (2 : Nat) = 1 from hc) (by decide)
          · intro _
            exact ⟨cost, hcost, ModeCosting.get_set _ _ _⟩
          · intro hc
            exact absurd (show (2 : Nat) = 3 from hc) (by decide)
      · injection h with h
        subst h
        exact ⟨rfl, rfl, fun _ _ => rfl, fun _ => rfl, fun hc => absurd (show (1 : Nat) = 2 from hc) (by decide),
          fun hc => absurd (show (1 : Nat) = 3 from hc) (by decide), Or.inl rfl⟩
  · injection h with h
    subst h
    exact ⟨rfl, rfl, fun _ _ => rfl, fun _ => rfl, fun hc => absurd (show (1 : Nat) = 2 from hc) (by decide),
      fun hc => absurd (show (1 : Nat) = 3 from hc) (by decide), Or.inl rfl⟩

/-- C19, at a search that needs the relaxed limits: the invocation goes on to
pass 2 and leaves the relaxed model in the active slot. -/
theorem GetPath_first_pass_table_witness :
    ∃ r, GetPath demoSif (demoAlgorithm 1) (demoWorker "auto") 0 () () = some r ∧
      r.trace.take 2 = [Event.Log "#_passes::1",
        Event.GetBestPath (demoWorker "auto").mode_costing (demoWorker "auto").mode] ∧
      r.worker.mode = (demoWorker "auto").mode ∧
      (∀ m, m ≠ (demoWorker "auto").mode →
        r.worker.mode_costing.get m = (demoWorker "auto").mode_costing.get m) ∧
      (r.trace.countP Event.isGetBestPath = 1 →
        r.worker.mode_costing = (demoWorker "auto").mode_costing) ∧
      (r.trace.countP Event.isGetBestPath = 2 →
        ∃ cost, (demoWorker "auto").mode_costing.get (demoWorker "auto").mode = some cost ∧
          r.worker.mode_costing.get (demoWorker "auto").mode =
            some (cost.RelaxHierarchyLimits 16)) ∧
      (r.trace.countP Event.isGetBestPath = 3 →
        ∃ cost, (demoWorker "auto").mode_costing.get (demoWorker "auto").mode = some cost ∧
          r.worker.mode_costing.get (demoWorker "auto").mode =
            some (cost.RelaxHierarchyLimits 16).DisableHighwayTransitions) ∧
      (r.trace.countP Event.isGetBestPath = 1 ∨ r.trace.countP Event.isGetBestPath = 2 ∨
        r.trace.countP Event.isGetBestPath = 3) :=
  ⟨_, rfl,
    GetPath_first_pass_table demoSif (demoAlgorithm 1) (demoWorker "auto") 0 () () _ rfl⟩

/-- C19, as stated, fails: the first `GetPath` invocation on a fresh model
goes on to pass 2, and the second invocation of the same request, on the table
the first one left, makes its first `GetBestPath` call with the active model
relaxed, not in its default configuration (and finds the path at once because
of it). -/
theorem GetPath_second_invocation_starts_relaxed :
    ∃ r1 r2,
      (demoWorker "auto").mode_costing.get (demoWorker "auto").mode =
        some (demoCost "auto") ∧
      (demoCost "auto").history = [] ∧
      GetPath demoSif (demoAlgorithm 1) (demoWorker "auto") 0 () () = some r1 ∧
      r1.trace.countP Event.isGetBestPath = 2 ∧
      GetPath demoSif (demoAlgorithm 1) r1.worker r1.path_algorithm () () = some r2 ∧
      r2.trace = [Event.Log "#_passes::1",
        Event.GetBestPath r1.worker.mode_costing r1.worker.mode] ∧
      (r1.worker.mode_costing.get r1.worker.mode).map DynamicCost.history =
        some [CostCall.RelaxHierarchyLimits 16] ∧
      r2.path_edges = [42] :=
  ⟨_, _, rfl, rfl, rfl, rfl, rfl, rfl, rfl, rfl⟩

/-! ## get_costing: the granularity of the merge -/

/-- No child is found exactly when the key is none of the keys. -/
theorem Ptree.find_eq_none_iff (key : String) (cs : List (String × Ptree)) :
    Ptree.find key cs = none ↔ key ∉ cs.map Prod.fst := by
  induction cs with
  | nil => simp [Ptree.find]
  | cons c cs ih =>
    obtain ⟨k, v⟩ := c
    by_cases hk : k = key
    · simp [Ptree.find, hk]
    · have hk2 : ¬ key = k := fun e => hk e.symm
      simp [Ptree.find, hk, hk2, ih]

/-- With distinct keys, `find` gives the value of the pair with the key. -/
theorem Ptree.find_of_mem (key : String) (v : Ptree) (cs : List (String × Ptree))
    (hnd : (cs.map Prod.fst).Nodup) (hmem : (key, v) ∈ cs) : Ptree.find key cs = some v := by
  induction cs with
  | nil => cases hmem
  | cons c cs ih =>
    obtain ⟨k, x⟩ := c
    simp only [List.map_cons, List.nodup_cons] at hnd
    rcases List.mem_cons.mp hmem with heq | hmem
    · injection heq with h1 h2
      subst h1 h2
      simp [Ptree.find]
    · have hne : k ≠ key := by
        intro e
        apply hnd.1
        rw [e]
        exact List.mem_map.mpr ⟨(key, v), hmem, rfl⟩
      simp only [Ptree.find, hne, if_false]
      exact ih hnd.2 hmem

/-- Looking up a key after replacing the first child of another key. -/
theorem Ptree.find_replaceFirst (k key : String) (value : Ptree) (cs : List (String × Ptree)) :
    Ptree.find k (Ptree.replaceFirst key value cs) =
      if k = key then (Ptree.find key cs).map (fun _ => value) else Ptree.find k cs := by
  induction cs with
  | nil => simp [Ptree.find, Ptree.replaceFirst]
  | cons c cs ih =>
    obtain ⟨k2, v2⟩ := c
    by_cases h2 : k2 = key
    · subst h2
      by_cases hk : k = k2
      · subst hk
        simp [Ptree.find, Ptree.replaceFirst]
      · have hk' : ¬ k2 = k := fun e => hk e.symm
        simp [Ptree.find, Ptree.replaceFirst, hk, hk']
    · by_cases hk : k = key
      · subst hk
        simp [Ptree.find, Ptree.replaceFirst, h2, ih]
      · by_cases hk2 : k2 = k
        · simp [Ptree.find, Ptree.replaceFirst, h2, hk, hk2]
        · simp [Ptree.find, Ptree.replaceFirst, h2, hk, hk2, ih]

/-- Looking up a key in a list with one more pair at the end. -/
theorem Ptree.find_append_singleton (k key : String) (value : Ptree)
    (cs : List (String × Ptree)) :
    Ptree.find k (cs ++ [(key, value)]) =
      match Ptree.find k cs with
      | some v => some v
      | none => if key = k then some value else none := by
  induction cs with
  | nil => simp [Ptree.find]
  | cons c cs ih =>
    obtain ⟨k2, v2⟩ := c
    by_cases hk2 : k2 = k
    · simp [Ptree.find, hk2]
    · simp [Ptree.find, hk2, ih]

/-- After the last step of `put_child` the key has the value, and every other
key what it had. -/
theorem Ptree.find_putHere (k key : String) (value : Ptree) (cs : List (String × Ptree)) :
    Ptree.find k (Ptree.putHere key value cs) =
      if k = key then some value else Ptree.find k cs := by
  unfold Ptree.putHere
  cases hf : Ptree.find key cs with
  | some old =>
    simp only [Ptree.find_replaceFirst, hf, Option.map_some']
  | none =>
    simp only [Ptree.find_append_singleton]
    by_cases hk : k = key
    · subst hk
      simp [hf]
    · have hk' : ¬ key = k := fun e => hk e.symm
      simp only [hk, hk', if_false]
      cases Ptree.find k cs <;> rfl

/-- The keys do not change when the first child of a key is replaced. -/
theorem Ptree.keys_replaceFirst (key : String) (value : Ptree) (cs : List (String × Ptree)) :
    (Ptree.replaceFirst key value cs).map Prod.fst = cs.map Prod.fst := by
  induction cs with
  | nil => rfl
  | cons c cs ih =>
    obtain ⟨k, v⟩ := c
    by_cases hk : k = key
    · simp [Ptree.replaceFirst, hk]
    · simp [Ptree.replaceFirst, hk, ih]

/-- The keys after the last step of `put_child`: a new key is appended, a
present one changes nothing. -/
theorem Ptree.keys_putHere (key : String) (value : Ptree) (cs : List (String × Ptree)) :
    (Ptree.putHere key value cs).map Prod.fst =
      if key ∈ cs.map Prod.fst then cs.map Prod.fst else cs.map Prod.fst ++ [key] := by
  unfold Ptree.putHere
  cases hf : Ptree.find key cs with
  | some old =>
    have hmem : key ∈ cs.map Prod.fst := by
      by_contra hcon
      rw [(Ptree.find_eq_none_iff key cs).mpr hcon] at hf
      cases hf
    simp only [Ptree.keys_replaceFirst, hmem, if_true]
  | none =>
    have hmem : key ∉ cs.map Prod.fst := (Ptree.find_eq_none_iff key cs).mp hf
    simp [hmem]

/-- The children of a built node. -/
theorem Ptree.children_mk (d : String) (cs : List (String × Ptree)) :
    (Ptree.mk d cs).children = cs := rfl

/-- The data of a built node. -/
theorem Ptree.data_mk (d : String) (cs : List (String × Ptree)) :
    (Ptree.mk d cs).data = d := rfl

/-- The keys of a built node. -/
theorem Ptree.keys_mk (d : String) (cs : List (String × Ptree)) :
    (Ptree.mk d cs).keys = cs.map Prod.fst := rfl

/-- The loop of `get_costing` over override pairs with distinct, separator-free
keys: the data is kept, every key of the override has the value of the
override, every other key what it had, and the new keys are appended in
order. -/
theorem merge_fold (rs : List (String × Ptree)) (t : Ptree)
    (hdot : ∀ r ∈ rs, '.' ∉ r.1.data) (hnd : (rs.map Prod.fst).Nodup) :
    (rs.foldl (fun overridden r => overridden.put_child r.1 r.2) t).data = t.data ∧
    (∀ k, Ptree.find k (rs.foldl (fun overridden r => overridden.put_child r.1 r.2) t).children =
      match Ptree.find k rs with
      | some v => some v
      | none => Ptree.find k t.children) ∧
    (rs.foldl (fun overridden r => overridden.put_child r.1 r.2) t).keys =
      t.keys ++ (rs.map Prod.fst).filter (fun k => decide (k ∉ t.keys)) := by
  induction rs generalizing t with
  | nil => simp [Ptree.find]
  | cons r rest ih =>
    obtain ⟨key, value⟩ := r
    have hkey : '.' ∉ key.data := hdot (key, value) (List.mem_cons_self _ _)
    simp only [List.map_cons, List.nodup_cons] at hnd
    obtain ⟨hnotin, hnd2⟩ := hnd
    obtain ⟨h1, h2, h3⟩ := ih (t.put_child key value)
      (fun r hr => hdot r (List.mem_cons_of_mem _ hr)) hnd2
    rw [Ptree.put_child_of_no_dot t key value hkey] at h1 h2 h3
    rw [Ptree.data_mk] at h1
    simp only [Ptree.children_mk] at h2
    rw [Ptree.keys_mk] at h3
    simp only [List.foldl_cons]
    rw [Ptree.put_child_of_no_dot t key value hkey]
    refine ⟨h1, ?_, ?_⟩
    · intro k
      rw [h2 k, Ptree.find_putHere]
      by_cases hk : k = key
      · subst hk
        have : Ptree.find k rest = none := (Ptree.find_eq_none_iff k rest).mpr hnotin
        simp [Ptree.find, this]
      · have hk' : ¬ key = k := fun e => hk e.symm
        simp only [Ptree.find, hk, hk', if_false]
    · rw [h3, Ptree.keys_putHere]
      have hkeys : t.keys = t.children.map Prod.fst := rfl
      rw [hkeys]
      have hfilter : (rest.map Prod.fst).filter
            (fun k => decide (k ∉ t.children.map Prod.fst ++ [key])) =
          (rest.map Prod.fst).filter (fun k => decide (k ∉ t.children.map Prod.fst)) := by
        apply List.filter_congr
        intro k hk
        have hne : k ≠ key := fun e => hnotin (e ▸ hk)
        simp [hne]
      by_cases hin : key ∈ t.children.map Prod.fst
      · have hd : decide (key ∉ t.children.map Prod.fst) = false := by simp [hin]
        simp only [if_pos hin]
        rw [List.map_cons, List.filter_cons, hd]
        rfl
      · have hd : decide (key ∉ t.children.map Prod.fst) = true := by simp [hin]
        simp only [if_neg hin]
        rw [hfilter, List.map_cons, List.filter_cons, hd, List.append_assoc]
        rfl

/-- The length of a duplicate-free list followed by the new elements of
another is the size of the union. -/
theorem length_append_filter_not_mem (a b : List String) (ha : a.Nodup) (hb : b.Nodup) :
    (a ++ b.filter (fun k => decide (k ∉ a))).length = (a.toFinset ∪ b.toFinset).card := by
  have hnd : (a ++ b.filter (fun k => decide (k ∉ a))).Nodup := by
    apply List.Nodup.append ha (hb.filter _)
    intro k hka hkb
    have := (List.mem_filter.mp hkb).2
    simp [hka] at this
  rw [← List.toFinset_card_of_nodup hnd]
  congr 1
  ext k
  simp only [List.mem_toFinset, List.mem_append, List.mem_filter, Finset.mem_union,
    decide_eq_true_eq]
  constructor
  · rintro (h | ⟨h, _⟩)
    · exact Or.inl h
    · exact Or.inr h
  · rintro (h | h)
    · exact Or.inl h
    · by_cases hka : k ∈ a
      · exact Or.inl hka
      · exact Or.inr ⟨h, hka⟩

/-- C20. The granularity of the merge: for a base and an override whose
top-level keys are distinct, those of the override without separator, the
merged tree has at every top-level key of the override the whole subtree of the
override at that key, so nothing the base has below that key survives; every
other key has what the base has; and the number of top-level keys of the result
is the size of the union of the top-level keys of base and override. -/
theorem merge_options_granularity (base override : Ptree)
    (hbase : base.keys.Nodup) (hover : override.keys.Nodup)
    (hdot : ∀ k ∈ override.keys, '.' ∉ k.data) :
    (∀ k v, (k, v) ∈ override.children →
      Ptree.find k (merge_options base override).children = some v) ∧
    (∀ k, k ∉ override.keys →
      Ptree.find k (merge_options base override).children = Ptree.find k base.children) ∧
    (merge_options base override).keys.length =
      (base.keys.toFinset ∪ override.keys.toFinset).card ∧
    (merge_options base override).data = base.data := by
  have hdot2 : ∀ r ∈ override.children, '.' ∉ r.1.data :=
    fun r hr => hdot r.1 (List.mem_map.mpr ⟨r, hr, rfl⟩)
  obtain ⟨h1, h2, h3⟩ := merge_fold override.children base hdot2 hover
  refine ⟨?_, ?_, ?_, h1⟩
  · intro k v hmem
    unfold merge_options
    rw [h2 k, Ptree.find_of_mem k v override.children hover hmem]
  · intro k hk
    unfold merge_options
    rw [h2 k, (Ptree.find_eq_none_iff k override.children).mpr hk]
  · unfold merge_options
    rw [h3]
    exact length_append_filter_not_mem base.keys override.keys hbase hover

/-- C20, for the base options of `auto` and an override that gives
`country_crossing` a subtree with `cost` only: the `penalty` the base has below
`country_crossing` is gone, and the result has the three keys of the union. -/
theorem merge_options_granularity_witness :
    autoBase.keys.Nodup ∧ nestedOverride.keys.Nodup ∧
    (∀ k ∈ nestedOverride.keys, '.' ∉ k.data) ∧
    merge_options autoBase nestedOverride =
      node [("maneuver_penalty", leaf "5"), ("country_crossing", node [("cost", leaf "1")]),
        ("use_tolls", leaf "0")] ∧
    (autoBase.get_child_optional "country_crossing.penalty").map Ptree.data = some "0" ∧
    ((merge_options autoBase nestedOverride).get_child_optional
      "country_crossing.penalty").map Ptree.data = none ∧
    (merge_options autoBase nestedOverride).keys.length = 3 ∧
    ((∀ k v, (k, v) ∈ nestedOverride.children →
      Ptree.find k (merge_options autoBase nestedOverride).children = some v) ∧
    (∀ k, k ∉ nestedOverride.keys →
      Ptree.find k (merge_options autoBase nestedOverride).children =
        Ptree.find k autoBase.children) ∧
    (merge_options autoBase nestedOverride).keys.length =
      (autoBase.keys.toFinset ∪ nestedOverride.keys.toFinset).card ∧
    (merge_options autoBase nestedOverride).data = autoBase.data) :=
  ⟨by decide, by decide, by decide, rfl, rfl, rfl, rfl,
    merge_options_granularity autoBase nestedOverride (by decide) (by decide) (by decide)⟩

end Thor
